import Mathlib

/-!
# Debugger: a ptrace breakpoint driver and a ptrace single-step driver

Shallow embedding of `debugger.c` (breakpoint driver) and `debugger_steps.c`
(single-step driver).

The tracer talks to the kernel through `fork`, `signal`, `wait`, `ptrace`,
`sleep`, `printf` and `perror`.  Each driver is embedded as a function from the
kernel's replies to the trace of calls the tracer makes, in program order,
together with the way the function ends.

Machine integers are bit patterns in `Nat`: a `long` is a pattern below
`2 ^ 64`, an `unsigned` one below `2 ^ 32`.  Return codes that the source only
compares with zero are kept as `Int`.

The output of `signal_handler`, which runs asynchronously, is not part of the
traces.
-/

/-! ## Data model -/

/-- Modelled from the spec: the wait status written by `wait(&status)`.  Its
encoding and the macros `WIFSTOPPED`, `WIFEXITED` and `WSTOPSIG` come from
`<sys/wait.h>`, which is not part of the repository; the three variants are
the ones of the data model of the specification. -/
inductive WaitStatus where
  | stopped (signal_number : Nat)
  | exited (exit_code : Nat)
  | signaled (signal_number : Nat)
  deriving DecidableEq, Repr

/-- Modelled from the spec: `WIFSTOPPED(status)` of `<sys/wait.h>`, true on
the *stopped* variant. -/
def WIFSTOPPED : WaitStatus → Bool
  | .stopped _ => true
  | _ => false

/-- Modelled from the spec: `WIFEXITED(status)` of `<sys/wait.h>`, true on
the *exited* variant. -/
def WIFEXITED : WaitStatus → Bool
  | .exited _ => true
  | _ => false

/-- Modelled from the spec: `WSTOPSIG(status)` of `<sys/wait.h>`, the signal
number of a *stopped* status (only read by the source under `WIFSTOPPED`). -/
def WSTOPSIG : WaitStatus → Nat
  | .stopped s => s
  | _ => 0

/-- Modelled from the spec: the number of the trap signal (`SIGTRAP` of
`<signal.h>`). -/
def SIGTRAP : Nat := 5

/-- Modelled from the spec: the number of the child-state-change signal
(`SIGCHLD` of `<signal.h>`). -/
def SIGCHLD : Nat := 17

/-- Modelled from the spec: the register file `struct user_regs_struct` of
`<sys/user.h>` on x86-64, which is not part of the repository.  Every field is
an `unsigned long long`. -/
structure user_regs_struct where
  r15 : Nat
  r14 : Nat
  r13 : Nat
  r12 : Nat
  rbp : Nat
  rbx : Nat
  r11 : Nat
  r10 : Nat
  r9 : Nat
  r8 : Nat
  rax : Nat
  rcx : Nat
  rdx : Nat
  rsi : Nat
  rdi : Nat
  orig_rax : Nat
  rip : Nat
  cs : Nat
  eflags : Nat
  rsp : Nat
  ss : Nat
  fs_base : Nat
  gs_base : Nat
  ds : Nat
  es : Nat
  fs : Nat
  gs : Nat
  deriving DecidableEq, Repr

/-- The register file after `memset(&regs, 0, sizeof(regs))`. -/
def user_regs_struct.zero : user_regs_struct :=
  ⟨0, 0, 0, 0, 0, 0, 0, 0, 0, 0, 0, 0, 0, 0, 0, 0, 0, 0, 0, 0, 0, 0, 0, 0, 0, 0, 0⟩

/-- The requests of `ptrace` the two programs use. -/
inductive Request where
  | PTRACE_TRACEME
  | PTRACE_PEEKTEXT
  | PTRACE_POKETEXT
  | PTRACE_CONT
  | PTRACE_SINGLESTEP
  | PTRACE_GETREGS
  | PTRACE_SETREGS
  deriving DecidableEq, Repr

/-- What `wait(&status)` leaves behind: its return value and the contents of
`status` after the call. -/
structure WaitReply where
  pid : Int
  status : WaitStatus
  deriving DecidableEq, Repr

/-- One call made by a process, in program order.  `wait` carries what the call
left behind, `none` when it never returns.  `ptrace` carries the request, the
process id, the address argument and the data argument; for `PTRACE_GETREGS`
and `PTRACE_SETREGS` the data argument is `&regs`, and the event of
`PTRACE_SETREGS` carries the register file that is written. -/
inductive Event where
  | fork
  | signal (signum : Nat)
  | wait (reply : Option WaitReply)
  | ptrace (request : Request) (pid : Int) (addr : Nat) (data : Nat)
  | getregs (pid : Int)
  | setregs (pid : Int) (regs : user_regs_struct)
  | sleep (seconds : Nat)
  | printf (format : String) (args : List Nat)
  | perror (s : String)
  | execve (path : String)
  | exit (code : Int)
  deriving DecidableEq, Repr

/-- How a `void` function of the programs ends: it returns, the process ends in
`exit`, the process image is replaced by a successful `execve`, or the process
stays blocked in a `wait` that never returns. -/
inductive Outcome where
  | returned
  | exited (code : Int)
  | replaced
  | blocked
  deriving DecidableEq, Repr

/-! ## Machine arithmetic -/

/-- The value `-1` of a `long`, as a bit pattern: what `ptrace` returns when the
kernel rejects the request. -/
def LONG_MINUS_ONE : Nat := 2 ^ 64 - 1

/-- The `long` returned by `ptrace(PTRACE_PEEKTEXT, ...)`: the text word, or
`-1` when the kernel rejects the request. -/
def peek_result : Option Nat → Nat
  | some w => w
  | none => LONG_MINUS_ONE

/-- Bitwise complement `~x` of an `int`, as a 32-bit pattern. -/
def int_not (x : Nat) : Nat := 2 ^ 32 - 1 - x % 2 ^ 32

/-- Conversion of an `int` to `long` (sign extension), on bit patterns. -/
def int_to_long (x : Nat) : Nat :=
  if x % 2 ^ 32 < 2 ^ 31 then x % 2 ^ 32 else x % 2 ^ 32 + (2 ^ 64 - 2 ^ 32)

/-- The expression `(data & ~0xff) | 0xcc` of `debugger.c`, with `data` a `long`
and the constants of type `int`. -/
def trap_word (data : Nat) : Nat :=
  (data &&& int_to_long (int_not 0xff)) ||| int_to_long 0xcc

/-- Conversion of a `long` to `unsigned` (the assignment
`instruction = ptrace(...)` of `debugger_steps.c`). -/
def long_to_unsigned (x : Nat) : Nat := x % 2 ^ 32

/-! ## The debuggee, and how `main` ends -/

/-- How `main` ends: it returns a value, or it does not return, in one of the
ways of `Outcome`. -/
inductive MainResult where
  | returned (value : Int)
  | exited (code : Int)
  | replaced
  | blocked
  deriving DecidableEq, Repr

/-- The end of `main` when the function it called ends with `o`; a function
that returns is followed by `return 0;`. -/
def after_call : Outcome → MainResult
  | .returned => .returned 0
  | .exited c => .exited c
  | .replaced => .replaced
  | .blocked => .blocked

/-- The kernel's replies to the calls of `do_debuggee`: the return value of
`ptrace(PTRACE_TRACEME, ...)` and that of `execve`, `none` when `execve`
succeeds and so does not return. -/
structure ChildKernel where
  getpid : Nat
  traceme : Int
  execve : Option Int
  deriving Repr

/-- The function `do_debuggee(void)`, the same in both programs. -/
def do_debuggee (c : ChildKernel) : List Event × Outcome :=
  let banner := [Event.printf "In debuggee process %ld\n" [c.getpid]]
  if c.traceme ≠ 0 then
    (banner ++ [Event.ptrace .PTRACE_TRACEME 0 0 0, Event.perror "ptrace"],
      Outcome.returned)
  else
    -- execve("sleeper", argv, envp);
    (banner ++ [Event.ptrace .PTRACE_TRACEME 0 0 0, Event.execve "sleeper"],
      match c.execve with
      | none => Outcome.replaced
      | some _ => Outcome.returned)

/-! ## The breakpoint driver, `debugger.c` -/

namespace debugger

/-- The kernel's replies to the calls of `do_debugger`, in program order, for a
run in which every `wait` returns.  `peek` and `getregs` are `none` when the
kernel rejects the request (`PTRACE_GETREGS` then leaves `regs` untouched).
Return values the source discards are kept so that a run in which the kernel
rejects a request can be written down. -/
structure Kernel where
  getpid : Nat
  signal_ok : Bool
  wait1 : WaitReply
  peek : Option Nat
  poke1 : Int
  cont1 : Int
  wait2 : WaitReply
  poke2 : Int
  getregs : Option user_regs_struct
  setregs : Int
  time1 : Nat
  time2 : Nat
  cont2 : Int
  wait3 : WaitReply
  deriving Repr

/-- The breakpoint address, `addr = 0x400b5d`. -/
def addr : Nat := 0x400b5d

/-- The function `do_debugger(pid_t child)` of `debugger.c`. -/
def do_debugger (child : Int) (k : Kernel) : List Event × Outcome :=
  let banner := [Event.printf "In debugger process %ld\n" [k.getpid]]
  if !k.signal_ok then
    (banner ++ [Event.signal SIGCHLD, Event.perror "signal", Event.exit (-1)],
      Outcome.exited (-1))
  else
    -- data = ptrace(PTRACE_PEEKTEXT, child, (void *)addr, NULL);
    let data := peek_result k.peek
    let orig_data := data
    let data := trap_word data
    -- child = wait(&status);
    let child2 := k.wait2.pid
    -- memset(&regs, 0, sizeof(regs)); ptrace(PTRACE_GETREGS, child, NULL, &regs);
    let regs := match k.getregs with
      | some r => r
      | none => user_regs_struct.zero
    let rip_before := regs.rip
    -- regs.rip = addr;
    let regs := { regs with rip := addr }
    -- child = wait(&status);
    let status := k.wait3.status
    (banner ++
      [Event.signal SIGCHLD,
       Event.wait (some k.wait1),
       Event.ptrace .PTRACE_PEEKTEXT child addr 0,
       Event.ptrace .PTRACE_POKETEXT child addr data,
       Event.printf "\noriginal instruction: |%lx|\n" [orig_data],
       Event.printf "\nmodified instruction: |%lx|\n\n" [data],
       Event.ptrace .PTRACE_CONT child 0 0,
       Event.wait (some k.wait2),
       Event.ptrace .PTRACE_POKETEXT child2 addr orig_data,
       Event.getregs child2,
       Event.printf "RIP before resuming child is %llx\n" [rip_before],
       Event.setregs child2 regs,
       Event.printf "Time before debugger falling asleep: %ld\n" [k.time1],
       Event.sleep 5,
       Event.printf "Time after debugger falling asleep: %ld. Resuming debuggee...\n"
         [k.time2],
       Event.ptrace .PTRACE_CONT child2 0 0,
       Event.wait (some k.wait3)] ++
      (if WIFSTOPPED status then
        [Event.printf "Debuggee stopped %d\n" [WSTOPSIG status]] else []) ++
      (if WIFEXITED status then [Event.printf "Debuggee exited...\n" []] else []) ++
      [Event.printf "Debugger exiting...\n" []],
      Outcome.returned)

/-- The function `main()` of `debugger.c`, in the process where `fork` returned
`child`. -/
def main (child : Int) (k : Kernel) (c : ChildKernel) : List Event × MainResult :=
  if child = 0 then
    (Event.fork :: (do_debuggee c).1, after_call (do_debuggee c).2)
  else if child > 0 then
    (Event.fork :: (do_debugger child k).1, after_call (do_debugger child k).2)
  else
    ([Event.fork, Event.perror "fork"], MainResult.returned (-1))

end debugger

/-! ## The single-step driver, `debugger_steps.c` -/

namespace debugger_steps

/-- The kernel's replies around one stop of the tracee: what the `wait` that
observes the stop leaves behind, and the replies to the three requests the
loop body makes when that status is a stop.  `getregs` and `peek` are `none`
when the kernel rejects the request (`PTRACE_GETREGS` then leaves `regs`
untouched); `step` is the return value of `ptrace(PTRACE_SINGLESTEP, ...)`. -/
structure Stop where
  wait : WaitReply
  getregs : Option user_regs_struct
  peek : Option Nat
  step : Int
  deriving Repr

/-- The kernel's replies to the calls of `do_debugger`: the contents of the
uninitialised `regs`, and one `Stop` for each `wait` that returns, in program
order.  A `wait` issued when no reply is left never returns. -/
structure Kernel where
  getpid : Nat
  regs0 : user_regs_struct
  script : List Stop
  deriving Repr

/-- The format of the line printed for each step. -/
def record_format : String := "icounter = %u.  RIP = 0x%08llx.  Instr = 0x%08x\n"

/-- The code after the loop: `child = wait(&status);` and the report. -/
def after_loop : List Stop → List Event × Outcome
  | [] => ([Event.wait none], Outcome.blocked)
  | s :: _ =>
    ([Event.wait (some s.wait)] ++
      (if WIFSTOPPED s.wait.status then
        [Event.printf "Debuggee stopped %d\n" [WSTOPSIG s.wait.status]] else []) ++
      (if WIFEXITED s.wait.status then [Event.printf "Debuggee exited...\n" []] else []) ++
      [Event.printf "Debugger exiting...\n" []],
      Outcome.returned)

/-- A `wait(&status);` followed by `while (WIFSTOPPED(status)) ...` and the code
after the loop, with the current contents of `regs` and `icounter`: the `wait`
before the loop and the one that ends the loop body are followed by the same
test. -/
def wait_loop (child : Int) :
    List Stop → user_regs_struct → Nat → List Event × Outcome
  | [], _, _ => ([Event.wait none], Outcome.blocked)
  | s :: rest, regs, icounter =>
    if WIFSTOPPED s.wait.status then
      -- icounter++;
      let icounter := (icounter + 1) % 2 ^ 32
      -- ptrace(PTRACE_GETREGS, child, 0, &regs);
      let regs := match s.getregs with
        | some r => r
        | none => regs
      -- instruction = ptrace(PTRACE_PEEKTEXT, child, regs.rip, 0);
      let instruction := long_to_unsigned (peek_result s.peek)
      let pass :=
        [Event.wait (some s.wait),
         Event.getregs child,
         Event.ptrace .PTRACE_PEEKTEXT child regs.rip 0,
         Event.printf record_format [icounter, regs.rip, instruction],
         Event.ptrace .PTRACE_SINGLESTEP child 0 0]
      if s.step < 0 then
        (pass ++ [Event.perror "ptrace"], Outcome.returned)
      else
        (pass ++ (wait_loop child rest regs icounter).1,
          (wait_loop child rest regs icounter).2)
    else
      (Event.wait (some s.wait) :: (after_loop rest).1, (after_loop rest).2)

/-- The function `do_debugger(pid_t child)` of `debugger_steps.c`. -/
def do_debugger (child : Int) (k : Kernel) : List Event × Outcome :=
  (Event.printf "In debugger process %ld\n" [k.getpid] :: (wait_loop child k.script k.regs0 0).1,
    (wait_loop child k.script k.regs0 0).2)

/-- The function `main()` of `debugger_steps.c`, in the process where `fork`
returned `child`. -/
def main (child : Int) (k : Kernel) (c : ChildKernel) : List Event × MainResult :=
  if child = 0 then
    (Event.fork :: (do_debuggee c).1, after_call (do_debuggee c).2)
  else if child > 0 then
    (Event.fork :: (do_debugger child k).1, after_call (do_debugger child k).2)
  else
    ([Event.fork, Event.perror "fork"], MainResult.returned (-1))

end debugger_steps

/-! ## Observations on traces -/

/-- The word written by an event, with process id and address, when the event
is a `PTRACE_POKETEXT`. -/
def poke_of : Event → Option (Int × Nat × Nat)
  | .ptrace .PTRACE_POKETEXT pid a w => some (pid, a, w)
  | _ => none

/-- The words written by `PTRACE_POKETEXT`, with process id and address. -/
def pokes (t : List Event) : List (Int × Nat × Nat) := t.filterMap poke_of

/-- The register file written by an event, with process id, when the event is
a `PTRACE_SETREGS`. -/
def written_of : Event → Option (Int × user_regs_struct)
  | .setregs pid r => some (pid, r)
  | _ => none

/-- The register files written by `PTRACE_SETREGS`, with process id. -/
def written_regs (t : List Event) : List (Int × user_regs_struct) :=
  t.filterMap written_of

/-- The tracee's text as a map from addresses to words. -/
abbrev Text := Nat → Nat

/-- The text of the tracee `tracee` after the pokes of a trace: a poke
addressed to the tracee replaces the word at its address, so that a later peek
there returns the last word poked. -/
def replay (tracee : Int) : List Event → Text → Text
  | [], m => m
  | .ptrace .PTRACE_POKETEXT pid a w :: es, m =>
    if pid = tracee then replay tracee es (Function.update m a w) else replay tracee es m
  | _ :: es, m => replay tracee es m

/-- A tracing primitive: any `ptrace` request of the tracer. -/
def is_tracing : Event → Bool
  | .ptrace _ _ _ _ => true
  | .getregs _ => true
  | .setregs _ _ => true
  | _ => false

/-- A resuming primitive: continue or single-step. -/
def is_resuming : Event → Bool
  | .ptrace .PTRACE_CONT _ _ _ => true
  | .ptrace .PTRACE_SINGLESTEP _ _ _ => true
  | _ => false

/-- A call of `wait`. -/
def is_wait : Event → Bool
  | .wait _ => true
  | _ => false

/-- The status delivered by an event, when the event is a `wait` that
returned. -/
def status_of : Event → Option WaitStatus
  | .wait (some r) => some r.status
  | _ => none

/-- The statuses delivered by the calls of `wait` that returned, in order. -/
def delivered (t : List Event) : List WaitStatus := t.filterMap status_of

/-- The record `(counter, instruction_pointer, text_word)` printed by an
event, when the event is the `printf` of the single-step loop. -/
def record_of : Event → Option (Nat × Nat × Nat)
  | .printf f [a, b, c] => if f = debugger_steps.record_format then some (a, b, c) else none
  | _ => none

/-- The records printed by the single-step driver, in order. -/
def records (t : List Event) : List (Nat × Nat × Nat) := t.filterMap record_of

/-- The address read by an event, with process id, when the event is a
`PTRACE_PEEKTEXT`. -/
def peek_of : Event → Option (Int × Nat)
  | .ptrace .PTRACE_PEEKTEXT pid a _ => some (pid, a)
  | _ => none

/-- The addresses read by `PTRACE_PEEKTEXT`, with process id, in order. -/
def peeks (t : List Event) : List (Int × Nat) := t.filterMap peek_of

/-- A report of a wait status: one of the two lines `Debuggee stopped %d` and
`Debuggee exited...`. -/
def is_report : Event → Bool
  | .printf f _ => f = "Debuggee stopped %d\n" || f = "Debuggee exited...\n"
  | _ => false

/-- A single-step request. -/
def is_single_step : Event → Bool
  | .ptrace .PTRACE_SINGLESTEP _ _ _ => true
  | _ => false

/-- The number of single-steps issued. -/
def single_steps (t : List Event) : Nat := t.countP is_single_step

/-- What the single-step loop leaves in a trace: a status delivered by a
`wait`, a record, a single-step. -/
inductive Mark where
  | waited (status : WaitStatus)
  | record
  | step
  deriving DecidableEq, Repr

/-- The mark of an event, when it is a `wait` that returned, the `printf` of a
record or a single-step request. -/
def mark_of (e : Event) : Option Mark :=
  match status_of e with
  | some st => some (Mark.waited st)
  | none =>
    if (record_of e).isSome then some Mark.record
    else if is_single_step e then some Mark.step
    else none

/-- The statuses delivered, the records and the single-steps of a trace, in the
order in which they occur. -/
def marks (t : List Event) : List Mark := t.filterMap mark_of

/-- The marks of one pass of the loop for each stop of a list: the status
delivered, one record, one single-step. -/
def marks_of_passes : List debugger_steps.Stop → List Mark
  | [] => []
  | p :: pre => Mark.waited p.wait.status :: Mark.record :: Mark.step :: marks_of_passes pre

/-- A `wait` that returned with a status that is not *stopped*: the one that
ends the single-step loop. -/
def ends_loop : Event → Bool
  | .wait (some r) => !WIFSTOPPED r.status
  | _ => false

/-- Lock-step monitor.  `observed` tells whether a `wait` has been issued since
the start of the session or since the last resuming primitive; a tracing
primitive issued when it is false breaks the lock-step. -/
def lock_step_from : Bool → List Event → Bool
  | _, [] => true
  | observed, e :: es =>
    if is_wait e then lock_step_from true es
    else if is_tracing e then observed && lock_step_from (!is_resuming e) es
    else lock_step_from observed es

/-- The lock-step discipline on a whole session: the first tracing primitive
comes after a `wait`, and so does every tracing primitive that follows a
continue or a single-step. -/
def lock_step (t : List Event) : Bool := lock_step_from false t

/-- The lock-step discipline, on the positions of a trace: a tracing primitive
has a `wait` somewhere before it, and between a resuming primitive and a later
tracing primitive there is a `wait`. -/
def LockStep (t : List Event) : Prop :=
  (∀ a e c, t = a ++ e :: c → is_tracing e = true → ∃ w ∈ a, is_wait w = true) ∧
  (∀ a e₁ b e₂ c, t = a ++ e₁ :: (b ++ e₂ :: c) → is_resuming e₁ = true →
    is_tracing e₂ = true → ∃ w ∈ b, is_wait w = true)

/-! ## Vocabulary of the proofs -/

/-- The register file after the `PTRACE_GETREGS` of a stop. -/
def debugger_steps.regs_after (s : debugger_steps.Stop) (regs : user_regs_struct) :
    user_regs_struct :=
  match s.getregs with
  | some r => r
  | none => regs

/-- The events of one pass of the loop body, from the `wait` that delivered the
stop to the single-step. -/
def debugger_steps.pass (child : Int) (s : debugger_steps.Stop) (regs : user_regs_struct)
    (ic : Nat) : List Event :=
  [Event.wait (some s.wait),
   Event.getregs child,
   Event.ptrace .PTRACE_PEEKTEXT child (debugger_steps.regs_after s regs).rip 0,
   Event.printf debugger_steps.record_format
     [(ic + 1) % 2 ^ 32, (debugger_steps.regs_after s regs).rip,
      long_to_unsigned (peek_result s.peek)],
   Event.ptrace .PTRACE_SINGLESTEP child 0 0]

/-- The register file after the passes over the stops of `pre`. -/
def debugger_steps.regs_through : List debugger_steps.Stop → user_regs_struct → user_regs_struct
  | [], regs => regs
  | s :: pre, regs => debugger_steps.regs_through pre (debugger_steps.regs_after s regs)

/-- The events of the passes of the loop body over the stops of `pre`. -/
def debugger_steps.passes (child : Int) :
    List debugger_steps.Stop → user_regs_struct → Nat → List Event
  | [], _, _ => []
  | s :: pre, regs, ic =>
    debugger_steps.pass child s regs ic ++
      debugger_steps.passes child pre (debugger_steps.regs_after s regs) ((ic + 1) % 2 ^ 32)

/-- The four facts of C8 on a trace: as many records and as many single-steps
as there are statuses in the longest all-stopped prefix of the statuses
delivered, and neither a record nor a tracing primitive from the first
delivered status that is not *stopped* on. -/
def loop_follows_statuses (t : List Event) : Prop :=
  (records t).length = ((delivered t).takeWhile WIFSTOPPED).length ∧
  single_steps t = ((delivered t).takeWhile WIFSTOPPED).length ∧
  records (t.dropWhile (fun e => !ends_loop e)) = [] ∧
  (t.dropWhile (fun e => !ends_loop e)).filter is_tracing = []

/-! ## Sample runs -/

/-- A run of the breakpoint driver in which every request succeeds and the trap
fires: the text word at the breakpoint is `0x3d8d48fffffc6ee8`. -/
def debugger.trap_run : debugger.Kernel where
  getpid := 4000
  signal_ok := true
  wait1 := ⟨4001, .stopped SIGTRAP⟩
  peek := some 0x3d8d48fffffc6ee8
  poke1 := 0
  cont1 := 0
  wait2 := ⟨4001, .stopped SIGTRAP⟩
  poke2 := 0
  getregs := some { user_regs_struct.zero with rip := 0x400b5e, rsp := 0x7ffc0000, rax := 7 }
  setregs := 0
  time1 := 1000
  time2 := 1005
  cont2 := 0
  wait3 := ⟨4001, .exited 0⟩

/-- A run of the breakpoint driver in which the tracee exits before it reaches
the breakpoint: the wait after the first continue reports *exited*, and the
kernel rejects every later request. -/
def debugger.exit_run : debugger.Kernel where
  getpid := 4000
  signal_ok := true
  wait1 := ⟨4001, .stopped SIGTRAP⟩
  peek := some 0x3d8d48fffffc6ee8
  poke1 := 0
  cont1 := 0
  wait2 := ⟨4001, .exited 0⟩
  poke2 := -1
  getregs := none
  setregs := -1
  time1 := 1000
  time2 := 1005
  cont2 := -1
  wait3 := ⟨-1, .exited 0⟩

/-- A text in which every word is `0x3d8d48fffffc6ee8`. -/
def debugger.sample_text : Text := fun _ => 0x3d8d48fffffc6ee8

/-- The first stop of `debugger_steps.short_run`: the tracee is stopped at
`0x400a30`, where the text word is `0x8949ed31fa1e0ff3`. -/
def debugger_steps.first_stop : debugger_steps.Stop where
  wait := ⟨4001, .stopped SIGTRAP⟩
  getregs := some { user_regs_struct.zero with rip := 0x400a30, rsp := 0x7ffc0000 }
  peek := some 0x8949ed31fa1e0ff3
  step := 0

/-- The second stop of `debugger_steps.short_run`: the tracee is stopped at
`0x400a34`, where the text word is `0xe48348e289485ed1`. -/
def debugger_steps.second_stop : debugger_steps.Stop where
  wait := ⟨4001, .stopped SIGTRAP⟩
  getregs := some { user_regs_struct.zero with rip := 0x400a34, rsp := 0x7ffc0000 }
  peek := some 0xe48348e289485ed1
  step := 0

/-- The tracee has exited: the `wait` reports *exited*. -/
def debugger_steps.exit_stop : debugger_steps.Stop where
  wait := ⟨4001, .exited 0⟩
  getregs := none
  peek := none
  step := -1

/-- No child is left: the `wait` returns `-1` and leaves the *exited* status in
place. -/
def debugger_steps.no_child : debugger_steps.Stop where
  wait := ⟨-1, .exited 0⟩
  getregs := none
  peek := none
  step := -1

/-- A session of the single-step driver in which the tracee makes two steps and
exits. -/
def debugger_steps.short_run : debugger_steps.Kernel where
  getpid := 4000
  regs0 := user_regs_struct.zero
  script := [debugger_steps.first_stop, debugger_steps.second_stop,
    debugger_steps.exit_stop, debugger_steps.no_child]

/-- A session of the single-step driver of `2 ^ 32` steps. -/
def debugger_steps.long_session : debugger_steps.Kernel where
  getpid := 4000
  regs0 := user_regs_struct.zero
  script := List.replicate 4294967295 debugger_steps.first_stop ++
    [debugger_steps.first_stop, debugger_steps.exit_stop, debugger_steps.no_child]

/-- A run of the breakpoint driver in which the kernel rejects the peek at arm
time, and every later request as well. -/
def debugger.rejected_run : debugger.Kernel where
  getpid := 4000
  signal_ok := true
  wait1 := ⟨4001, .stopped SIGTRAP⟩
  peek := none
  poke1 := -1
  cont1 := -1
  wait2 := ⟨4001, .stopped SIGTRAP⟩
  poke2 := -1
  getregs := none
  setregs := -1
  time1 := 1000
  time2 := 1005
  cont2 := -1
  wait3 := ⟨4001, .stopped SIGTRAP⟩

/-- A stop at which the kernel rejects get-registers and the peek, and accepts
the single-step. -/
def debugger_steps.deaf_stop : debugger_steps.Stop where
  wait := ⟨4001, .stopped SIGTRAP⟩
  getregs := none
  peek := none
  step := 0

/-- A session of the single-step driver in which the kernel rejects
get-registers and the peek of the only step. -/
def debugger_steps.deaf_run : debugger_steps.Kernel where
  getpid := 4000
  regs0 := user_regs_struct.zero
  script := [debugger_steps.deaf_stop, debugger_steps.exit_stop, debugger_steps.no_child]

/-- A stop at which the kernel rejects the single-step. -/
def debugger_steps.stuck_stop : debugger_steps.Stop where
  wait := ⟨4001, .stopped SIGTRAP⟩
  getregs := some { user_regs_struct.zero with rip := 0x400a34, rsp := 0x7ffc0000 }
  peek := some 0xe48348e289485ed1
  step := -1

/-- A session of the single-step driver in which the kernel rejects the second
single-step. -/
def debugger_steps.stuck_run : debugger_steps.Kernel where
  getpid := 4000
  regs0 := user_regs_struct.zero
  script := [debugger_steps.first_stop, debugger_steps.stuck_stop,
    debugger_steps.exit_stop, debugger_steps.no_child]

/-- A child in which the trace-me request is rejected. -/
def refused_child : ChildKernel where
  getpid := 4001
  traceme := -1
  execve := none

/-- A session of the single-step driver in which the child has exited before
the initial wait. -/
def debugger_steps.dead_run : debugger_steps.Kernel where
  getpid := 4000
  regs0 := user_regs_struct.zero
  script := [debugger_steps.exit_stop, debugger_steps.no_child]

/-- A run of the breakpoint driver in which the wait after the first continue
returns `-1`, not the process id of the tracee, and every request succeeds. -/
def debugger.lost_child_run : debugger.Kernel where
  getpid := 4000
  signal_ok := true
  wait1 := ⟨4001, .stopped SIGTRAP⟩
  peek := some 0x3d8d48fffffc6ee8
  poke1 := 0
  cont1 := 0
  wait2 := ⟨-1, .stopped SIGTRAP⟩
  poke2 := -1
  getregs := none
  setregs := -1
  time1 := 1000
  time2 := 1005
  cont2 := -1
  wait3 := ⟨4001, .exited 0⟩

/-! ## Machine arithmetic: lemmas -/

theorem int_to_long_int_not_ff : int_to_long (int_not 0xff) = 0xffffffffffffff00 := by
  decide

theorem land_high_mask (W : Nat) (h : W < 2 ^ 64) :
    W &&& 0xffffffffffffff00 = W / 256 * 256 := by
  apply Nat.eq_of_testBit_eq
  intro i
  have hm : (0xffffffffffffff00 : Nat) = (2 ^ 56 - 1) <<< 8 := by decide
  have hs : W / 256 * 256 = (W >>> 8) <<< 8 := by
    rw [Nat.shiftRight_eq_div_pow, Nat.shiftLeft_eq]
  rw [hm, hs, Nat.testBit_and, Nat.testBit_shiftLeft, Nat.testBit_shiftLeft,
    Nat.testBit_two_pow_sub_one, Nat.testBit_shiftRight]
  by_cases h8 : 8 ≤ i
  · by_cases h64 : i < 64
    · have : i - 8 < 56 := by omega
      simp [h8, this]
    · have hW : W < 2 ^ i :=
        lt_of_lt_of_le h (Nat.pow_le_pow_right (by norm_num) (by omega))
      have hb : W.testBit i = false := Nat.testBit_lt_two_pow hW
      have hi : 8 + (i - 8) = i := by omega
      simp [h8, hi, hb]
  · simp [h8]

theorem trap_word_eq (W : Nat) (h : W < 2 ^ 64) : trap_word W = W / 256 * 256 + 0xcc := by
  have hcc : int_to_long 0xcc = 0xcc := by decide
  unfold trap_word
  rw [int_to_long_int_not_ff, hcc, land_high_mask W h, Nat.mul_comm (W / 256) 256]
  exact (Nat.mul_add_lt_is_or (i := 8) (b := 0xcc) (by norm_num) (W / 256)).symm

/-! ## The breakpoint driver: lemmas -/

theorem debugger.pokes_do_debugger (child : Int) (k : debugger.Kernel)
    (hs : k.signal_ok = true) :
    pokes (debugger.do_debugger child k).1 =
      [(child, debugger.addr, trap_word (peek_result k.peek)),
       (k.wait2.pid, debugger.addr, peek_result k.peek)] := by
  unfold debugger.do_debugger
  simp only [hs]
  cases h1 : WIFSTOPPED k.wait3.status <;> cases h2 : WIFEXITED k.wait3.status <;>
    simp [pokes, poke_of]

theorem debugger.written_regs_do_debugger (child : Int) (k : debugger.Kernel)
    (hs : k.signal_ok = true) :
    written_regs (debugger.do_debugger child k).1 =
      [(k.wait2.pid,
        { (match k.getregs with
            | some r => r
            | none => user_regs_struct.zero) with rip := debugger.addr })] := by
  unfold debugger.do_debugger
  simp only [hs]
  cases h1 : WIFSTOPPED k.wait3.status <;> cases h2 : WIFEXITED k.wait3.status <;>
    simp [written_regs, written_of]

theorem debugger.kernel_calls_do_debugger (child : Int) (k : debugger.Kernel)
    (hs : k.signal_ok = true) :
    (debugger.do_debugger child k).1.filter (fun e => is_wait e || is_tracing e) =
      [Event.wait (some k.wait1),
       Event.ptrace .PTRACE_PEEKTEXT child debugger.addr 0,
       Event.ptrace .PTRACE_POKETEXT child debugger.addr (trap_word (peek_result k.peek)),
       Event.ptrace .PTRACE_CONT child 0 0,
       Event.wait (some k.wait2),
       Event.ptrace .PTRACE_POKETEXT k.wait2.pid debugger.addr (peek_result k.peek),
       Event.getregs k.wait2.pid,
       Event.setregs k.wait2.pid
         { (match k.getregs with
            | some r => r
            | none => user_regs_struct.zero) with rip := debugger.addr },
       Event.ptrace .PTRACE_CONT k.wait2.pid 0 0,
       Event.wait (some k.wait3)] := by
  unfold debugger.do_debugger
  simp only [hs]
  cases h1 : WIFSTOPPED k.wait3.status <;> cases h2 : WIFEXITED k.wait3.status <;>
    simp [is_wait, is_tracing, List.filter]

/-! ## The breakpoint driver: claims -/

/-- C1: in the arm step of the breakpoint driver, for every 64-bit text word `W`
returned by the peek at the breakpoint address, the word written back by the
poke is `(W AND NOT 0xFF) OR 0xCC`: its low-order byte is `0xCC` and its upper
seven bytes are those of `W`. -/
theorem C1_arm_pokes_trap_word (child : Int) (k : debugger.Kernel) (W : Nat)
    (hs : k.signal_ok = true) (hp : k.peek = some W) (hW : W < 2 ^ 64) :
    ∃ w, (pokes (debugger.do_debugger child k).1).head? = some (child, debugger.addr, w) ∧
      w = (W &&& (2 ^ 64 - 1 - 0xFF)) ||| 0xCC ∧
      w % 256 = 0xCC ∧ w / 256 = W / 256 ∧ w < 2 ^ 64 := by
  refine ⟨trap_word W, ?_, ?_, ?_, ?_, ?_⟩
  · rw [debugger.pokes_do_debugger child k hs, hp]
    rfl
  · have hcc : int_to_long 0xcc = 0xCC := by decide
    unfold trap_word
    rw [int_to_long_int_not_ff, hcc]
    norm_num
  · rw [trap_word_eq W hW]
    omega
  · rw [trap_word_eq W hW]
    omega
  · rw [trap_word_eq W hW]
    omega

/-- Witness of C1: the run `debugger.trap_run`, where the poke writes
`0x3d8d48fffffc6ecc`. -/
theorem C1_arm_pokes_trap_word_witness :
    debugger.trap_run.signal_ok = true ∧
    debugger.trap_run.peek = some 0x3d8d48fffffc6ee8 ∧
    0x3d8d48fffffc6ee8 < 2 ^ 64 ∧
    ∃ w, (pokes (debugger.do_debugger 4001 debugger.trap_run).1).head? =
        some (4001, debugger.addr, w) ∧
      w = (0x3d8d48fffffc6ee8 &&& (2 ^ 64 - 1 - 0xFF)) ||| 0xCC ∧
      w % 256 = 0xCC ∧ w / 256 = 0x3d8d48fffffc6ee8 / 256 ∧ w < 2 ^ 64 :=
  ⟨rfl, rfl, by norm_num,
    C1_arm_pokes_trap_word 4001 debugger.trap_run 0x3d8d48fffffc6ee8 rfl rfl (by norm_num)⟩

/-- C2, counterexample: in the run `debugger.lost_child_run` the wait between
arm and disarm returns `-1`; the disarm poke is addressed to that process id,
and the text word of the tracee `4001` at the breakpoint address is still the
trap word `0x3d8d48fffffc6ecc` after the disarm, not the word
`0x3d8d48fffffc6ee8` observed before the arm. -/
theorem C2_counterexample :
    debugger.lost_child_run.peek = some (debugger.sample_text debugger.addr) ∧
    debugger.sample_text debugger.addr = 0x3d8d48fffffc6ee8 ∧
    debugger.lost_child_run.wait2.pid = -1 ∧
    pokes (debugger.do_debugger 4001 debugger.lost_child_run).1 =
      [(4001, 0x400b5d, 0x3d8d48fffffc6ecc), (-1, 0x400b5d, 0x3d8d48fffffc6ee8)] ∧
    replay 4001 (debugger.do_debugger 4001 debugger.lost_child_run).1 debugger.sample_text
      debugger.addr = 0x3d8d48fffffc6ecc := by
  refine ⟨rfl, rfl, rfl, ?_, ?_⟩
  · rw [debugger.pokes_do_debugger 4001 debugger.lost_child_run rfl]
    decide
  · unfold debugger.do_debugger
    simp [debugger.lost_child_run, replay, WIFSTOPPED, WIFEXITED, peek_result, debugger.addr]
    decide

/-- C2, amended: with the tracee's text a map in which a peek returns the last
word poked, the arm of the breakpoint driver pokes the trap word at the
breakpoint address of the tracee, and the disarm pokes exactly the saved word
at exactly the same address, addressed to the process id returned by the wait
that follows the first continue; when that process id is the tracee's, arm
followed by disarm leaves the text word at the breakpoint address equal to the
word observed before the arm and every other address unchanged. -/
theorem C2_arm_disarm_restores_text (child : Int) (k : debugger.Kernel) (m : Text)
    (hs : k.signal_ok = true) (hp : k.peek = some (m debugger.addr)) :
    pokes (debugger.do_debugger child k).1 =
      [(child, debugger.addr, trap_word (m debugger.addr)),
       (k.wait2.pid, debugger.addr, m debugger.addr)] ∧
    replay child ((debugger.do_debugger child k).1.takeWhile (fun e => !is_resuming e)) m =
      Function.update m debugger.addr (trap_word (m debugger.addr)) ∧
    (k.wait2.pid = child → replay child (debugger.do_debugger child k).1 m = m) := by
  refine ⟨?_, ?_, ?_⟩
  · rw [debugger.pokes_do_debugger child k hs, hp]
    rfl
  · unfold debugger.do_debugger
    simp only [hs, hp, peek_result]
    simp [replay, is_resuming, List.takeWhile]
  · intro hw
    unfold debugger.do_debugger
    simp only [hs, hp, hw, peek_result]
    cases h1 : WIFSTOPPED k.wait3.status <;> cases h2 : WIFEXITED k.wait3.status <;>
      simp [replay]

/-- Witness of C2, amended: the run `debugger.trap_run` on
`debugger.sample_text`. -/
theorem C2_arm_disarm_restores_text_witness :
    debugger.trap_run.signal_ok = true ∧
    debugger.trap_run.peek = some (debugger.sample_text debugger.addr) ∧
    debugger.trap_run.wait2.pid = 4001 ∧
    pokes (debugger.do_debugger 4001 debugger.trap_run).1 =
      [(4001, debugger.addr, trap_word (debugger.sample_text debugger.addr)),
       (debugger.trap_run.wait2.pid, debugger.addr, debugger.sample_text debugger.addr)] ∧
    replay 4001
        ((debugger.do_debugger 4001 debugger.trap_run).1.takeWhile
          (fun e => !is_resuming e)) debugger.sample_text =
      Function.update debugger.sample_text debugger.addr
        (trap_word (debugger.sample_text debugger.addr)) ∧
    replay 4001 (debugger.do_debugger 4001 debugger.trap_run).1 debugger.sample_text =
      debugger.sample_text :=
  ⟨rfl, rfl, rfl,
    (C2_arm_disarm_restores_text 4001 debugger.trap_run debugger.sample_text rfl rfl).1,
    (C2_arm_disarm_restores_text 4001 debugger.trap_run debugger.sample_text rfl rfl).2.1,
    (C2_arm_disarm_restores_text 4001 debugger.trap_run debugger.sample_text rfl rfl).2.2 rfl⟩

/-- C3: for every register file `R` returned by get-registers after the trap
stop, the register file the breakpoint driver writes back with set-registers
has its instruction pointer equal to the breakpoint address `0x400b5d` and
every other field equal to the field of `R`. -/
theorem C3_rewind_changes_only_rip (child : Int) (k : debugger.Kernel)
    (R : user_regs_struct) (hs : k.signal_ok = true) (hg : k.getregs = some R) :
    ∃ w, written_regs (debugger.do_debugger child k).1 = [(k.wait2.pid, w)] ∧
      w.rip = 0x400b5d ∧
      w.r15 = R.r15 ∧ w.r14 = R.r14 ∧ w.r13 = R.r13 ∧ w.r12 = R.r12 ∧
      w.rbp = R.rbp ∧ w.rbx = R.rbx ∧ w.r11 = R.r11 ∧ w.r10 = R.r10 ∧
      w.r9 = R.r9 ∧ w.r8 = R.r8 ∧ w.rax = R.rax ∧ w.rcx = R.rcx ∧
      w.rdx = R.rdx ∧ w.rsi = R.rsi ∧ w.rdi = R.rdi ∧ w.orig_rax = R.orig_rax ∧
      w.cs = R.cs ∧ w.eflags = R.eflags ∧ w.rsp = R.rsp ∧ w.ss = R.ss ∧
      w.fs_base = R.fs_base ∧ w.gs_base = R.gs_base ∧ w.ds = R.ds ∧ w.es = R.es ∧
      w.fs = R.fs ∧ w.gs = R.gs := by
  refine ⟨{ R with rip := debugger.addr }, ?_, ?_⟩
  · rw [debugger.written_regs_do_debugger child k hs, hg]
  · simp [debugger.addr]

/-- Witness of C3: the run `debugger.trap_run`, where the trap stop reports
`rip = 0x400b5e`. -/
theorem C3_rewind_changes_only_rip_witness :
    debugger.trap_run.signal_ok = true ∧
    debugger.trap_run.getregs =
      some { user_regs_struct.zero with rip := 0x400b5e, rsp := 0x7ffc0000, rax := 7 } ∧
    ∃ w, written_regs (debugger.do_debugger 4001 debugger.trap_run).1 =
        [(debugger.trap_run.wait2.pid, w)] ∧
      w.rip = 0x400b5d ∧
      w.r15 = 0 ∧ w.r14 = 0 ∧ w.r13 = 0 ∧ w.r12 = 0 ∧
      w.rbp = 0 ∧ w.rbx = 0 ∧ w.r11 = 0 ∧ w.r10 = 0 ∧
      w.r9 = 0 ∧ w.r8 = 0 ∧ w.rax = 7 ∧ w.rcx = 0 ∧
      w.rdx = 0 ∧ w.rsi = 0 ∧ w.rdi = 0 ∧ w.orig_rax = 0 ∧
      w.cs = 0 ∧ w.eflags = 0 ∧ w.rsp = 0x7ffc0000 ∧ w.ss = 0 ∧
      w.fs_base = 0 ∧ w.gs_base = 0 ∧ w.ds = 0 ∧ w.es = 0 ∧
      w.fs = 0 ∧ w.gs = 0 :=
  ⟨rfl, rfl,
    C3_rewind_changes_only_rip 4001 debugger.trap_run
      { user_regs_struct.zero with rip := 0x400b5e, rsp := 0x7ffc0000, rax := 7 } rfl rfl⟩

/-- C4, counterexample: in the run `debugger.exit_run` the wait that follows the
first continue reports *exited*, and the driver still issues the restoring
poke, get-registers and set-registers, then a second continue and a wait. -/
theorem C4_counterexample :
    debugger.exit_run.wait2.status = WaitStatus.exited 0 ∧
    ((debugger.do_debugger 4001 debugger.exit_run).1.filter
        (fun e => is_wait e || is_tracing e)).drop 4 =
      [Event.wait (some ⟨4001, .exited 0⟩),
       Event.ptrace .PTRACE_POKETEXT 4001 0x400b5d 0x3d8d48fffffc6ee8,
       Event.getregs 4001,
       Event.setregs 4001 { user_regs_struct.zero with rip := 0x400b5d },
       Event.ptrace .PTRACE_CONT 4001 0 0,
       Event.wait (some ⟨-1, .exited 0⟩)] := by
  refine ⟨rfl, ?_⟩
  rw [debugger.kernel_calls_do_debugger 4001 debugger.exit_run rfl]
  rfl

/-- C4, amended: for every wait status returned by the wait that follows the
first continue, the breakpoint driver issues the restoring poke and the
get-registers and set-registers of the rewind, then the second continue and a
last wait; it does not inspect that status, its calls of `wait` and `ptrace`
are the same ten whatever the three statuses are, and the only status it
reports is that of the last wait, after which the session ends. -/
theorem C4_restore_and_rewind_unconditional (child : Int) (k : debugger.Kernel)
    (hs : k.signal_ok = true) :
    (debugger.do_debugger child k).1.filter (fun e => is_wait e || is_tracing e) =
      [Event.wait (some k.wait1),
       Event.ptrace .PTRACE_PEEKTEXT child debugger.addr 0,
       Event.ptrace .PTRACE_POKETEXT child debugger.addr (trap_word (peek_result k.peek)),
       Event.ptrace .PTRACE_CONT child 0 0,
       Event.wait (some k.wait2),
       Event.ptrace .PTRACE_POKETEXT k.wait2.pid debugger.addr (peek_result k.peek),
       Event.getregs k.wait2.pid,
       Event.setregs k.wait2.pid
         { (match k.getregs with
            | some r => r
            | none => user_regs_struct.zero) with rip := debugger.addr },
       Event.ptrace .PTRACE_CONT k.wait2.pid 0 0,
       Event.wait (some k.wait3)] ∧
    (debugger.do_debugger child k).2 = Outcome.returned ∧
    (debugger.do_debugger child k).1.filter is_report =
      (if WIFSTOPPED k.wait3.status then
        [Event.printf "Debuggee stopped %d\n" [WSTOPSIG k.wait3.status]] else []) ++
      (if WIFEXITED k.wait3.status then [Event.printf "Debuggee exited...\n" []] else []) ∧
    (debugger.do_debugger child k).1.drop 8 =
      [Event.wait (some k.wait2),
       Event.ptrace .PTRACE_POKETEXT k.wait2.pid debugger.addr (peek_result k.peek),
       Event.getregs k.wait2.pid,
       Event.printf "RIP before resuming child is %llx\n"
         [(match k.getregs with
            | some r => r
            | none => user_regs_struct.zero).rip],
       Event.setregs k.wait2.pid
         { (match k.getregs with
            | some r => r
            | none => user_regs_struct.zero) with rip := debugger.addr },
       Event.printf "Time before debugger falling asleep: %ld\n" [k.time1],
       Event.sleep 5,
       Event.printf "Time after debugger falling asleep: %ld. Resuming debuggee...\n"
         [k.time2],
       Event.ptrace .PTRACE_CONT k.wait2.pid 0 0,
       Event.wait (some k.wait3)] ++
      (if WIFSTOPPED k.wait3.status then
        [Event.printf "Debuggee stopped %d\n" [WSTOPSIG k.wait3.status]] else []) ++
      (if WIFEXITED k.wait3.status then [Event.printf "Debuggee exited...\n" []] else []) ++
      [Event.printf "Debugger exiting...\n" []] := by
  refine ⟨debugger.kernel_calls_do_debugger child k hs, ?_, ?_, ?_⟩
  · unfold debugger.do_debugger
    simp [hs]
  · unfold debugger.do_debugger
    simp only [hs]
    cases h1 : WIFSTOPPED k.wait3.status <;> cases h2 : WIFEXITED k.wait3.status <;>
      simp [is_report, h1, h2]
  · unfold debugger.do_debugger
    simp only [hs]
    cases h1 : WIFSTOPPED k.wait3.status <;> cases h2 : WIFEXITED k.wait3.status <;>
      simp [h1, h2]

/-- Witness of C4, amended: the run `debugger.exit_run`, in which the wait after
the first continue reports *exited*; the one report is that of the last
wait. -/
theorem C4_restore_and_rewind_unconditional_witness :
    debugger.exit_run.signal_ok = true ∧
    (debugger.do_debugger 4001 debugger.exit_run).1.filter
        (fun e => is_wait e || is_tracing e) =
      [Event.wait (some debugger.exit_run.wait1),
       Event.ptrace .PTRACE_PEEKTEXT 4001 debugger.addr 0,
       Event.ptrace .PTRACE_POKETEXT 4001 debugger.addr
         (trap_word (peek_result debugger.exit_run.peek)),
       Event.ptrace .PTRACE_CONT 4001 0 0,
       Event.wait (some debugger.exit_run.wait2),
       Event.ptrace .PTRACE_POKETEXT debugger.exit_run.wait2.pid debugger.addr
         (peek_result debugger.exit_run.peek),
       Event.getregs debugger.exit_run.wait2.pid,
       Event.setregs debugger.exit_run.wait2.pid
         { (match debugger.exit_run.getregs with
            | some r => r
            | none => user_regs_struct.zero) with rip := debugger.addr },
       Event.ptrace .PTRACE_CONT debugger.exit_run.wait2.pid 0 0,
       Event.wait (some debugger.exit_run.wait3)] ∧
    (debugger.do_debugger 4001 debugger.exit_run).2 = Outcome.returned ∧
    (debugger.do_debugger 4001 debugger.exit_run).1.filter is_report =
      (if WIFSTOPPED debugger.exit_run.wait3.status then
        [Event.printf "Debuggee stopped %d\n" [WSTOPSIG debugger.exit_run.wait3.status]]
        else []) ++
      (if WIFEXITED debugger.exit_run.wait3.status then
        [Event.printf "Debuggee exited...\n" []] else []) :=
  ⟨rfl, (C4_restore_and_rewind_unconditional 4001 debugger.exit_run rfl).1,
    (C4_restore_and_rewind_unconditional 4001 debugger.exit_run rfl).2.1,
    (C4_restore_and_rewind_unconditional 4001 debugger.exit_run rfl).2.2.1⟩

/-! ## The single-step driver: lemmas -/

theorem debugger_steps.records_after_loop (rest : List debugger_steps.Stop) :
    records (debugger_steps.after_loop rest).1 = [] := by
  cases rest with
  | nil => simp [debugger_steps.after_loop, records, record_of]
  | cons s tl =>
    unfold debugger_steps.after_loop
    cases h1 : WIFSTOPPED s.wait.status <;> cases h2 : WIFEXITED s.wait.status <;>
      simp [records, record_of]

theorem debugger_steps.tracing_after_loop (rest : List debugger_steps.Stop) :
    (debugger_steps.after_loop rest).1.filter is_tracing = [] := by
  cases rest with
  | nil => simp [debugger_steps.after_loop, is_tracing]
  | cons s tl =>
    unfold debugger_steps.after_loop
    cases h1 : WIFSTOPPED s.wait.status <;> cases h2 : WIFEXITED s.wait.status <;>
      simp [is_tracing]

/-- The loop on a status that is not a stop: the `wait` that delivered it is
followed by the code after the loop. -/
theorem debugger_steps.wait_loop_unstopped (child : Int) (s : debugger_steps.Stop)
    (rest : List debugger_steps.Stop) (regs : user_regs_struct) (ic : Nat)
    (h : WIFSTOPPED s.wait.status = false) :
    debugger_steps.wait_loop child (s :: rest) regs ic =
      (Event.wait (some s.wait) :: (debugger_steps.after_loop rest).1,
        (debugger_steps.after_loop rest).2) := by
  simp [debugger_steps.wait_loop, h]

theorem debugger_steps.wait_loop_rejected (child : Int) (s : debugger_steps.Stop)
    (rest : List debugger_steps.Stop) (regs : user_regs_struct) (ic : Nat)
    (h : WIFSTOPPED s.wait.status = true) (hr : s.step < 0) :
    debugger_steps.wait_loop child (s :: rest) regs ic =
      (debugger_steps.pass child s regs ic ++ [Event.perror "ptrace"], Outcome.returned) := by
  simp [debugger_steps.wait_loop, h, hr, debugger_steps.pass, debugger_steps.regs_after]

theorem debugger_steps.wait_loop_stepped (child : Int) (s : debugger_steps.Stop)
    (rest : List debugger_steps.Stop) (regs : user_regs_struct) (ic : Nat)
    (h : WIFSTOPPED s.wait.status = true) (hr : ¬ s.step < 0) :
    debugger_steps.wait_loop child (s :: rest) regs ic =
      (debugger_steps.pass child s regs ic ++
          (debugger_steps.wait_loop child rest (debugger_steps.regs_after s regs)
            ((ic + 1) % 2 ^ 32)).1,
        (debugger_steps.wait_loop child rest (debugger_steps.regs_after s regs)
            ((ic + 1) % 2 ^ 32)).2) := by
  simp [debugger_steps.wait_loop, h, hr, debugger_steps.pass, debugger_steps.regs_after]

theorem debugger_steps.records_pass (child : Int) (s : debugger_steps.Stop)
    (regs : user_regs_struct) (ic : Nat) :
    records (debugger_steps.pass child s regs ic) =
      [((ic + 1) % 2 ^ 32, (debugger_steps.regs_after s regs).rip,
        long_to_unsigned (peek_result s.peek))] := by
  simp [records, record_of, debugger_steps.pass]

theorem records_append (a b : List Event) : records (a ++ b) = records a ++ records b := by
  simp [records]

/-- The record at index `i` of a run of the loop comes from the stop at index
`i` of the script: that stop has a *stopped* status, the counter is the one at
loop entry plus `i + 1` modulo `2 ^ 32`, the word is the one peeked converted
to `unsigned`, and the instruction pointer is the one of the register file
when get-registers returned one. -/
theorem debugger_steps.record_at (child : Int) :
    ∀ (script : List debugger_steps.Stop) (regs : user_regs_struct) (ic i : Nat)
      (r : Nat × Nat × Nat),
      (records (debugger_steps.wait_loop child script regs ic).1)[i]? = some r →
      ∃ s, script[i]? = some s ∧ WIFSTOPPED s.wait.status = true ∧
        r.1 = (ic + i + 1) % 2 ^ 32 ∧
        r.2.2 = long_to_unsigned (peek_result s.peek) ∧
        (∀ R, s.getregs = some R → r.2.1 = R.rip) := by
  intro script
  induction script with
  | nil =>
    intro regs ic i r h
    simp [debugger_steps.wait_loop, records, record_of] at h
  | cons s rest ih =>
    intro regs ic i r h
    cases hst : WIFSTOPPED s.wait.status with
    | false =>
      rw [debugger_steps.wait_loop_unstopped child s rest regs ic hst] at h
      have h0 : records (Event.wait (some s.wait) :: (debugger_steps.after_loop rest).1) = [] := by
        have := debugger_steps.records_after_loop rest
        simpa [records, record_of] using this
      simp [h0] at h
    | true =>
      by_cases hr : s.step < 0
      · rw [debugger_steps.wait_loop_rejected child s rest regs ic hst hr] at h
        have hp : records [Event.perror "ptrace"] = [] := by simp [records, record_of]
        rw [records_append, debugger_steps.records_pass, hp] at h
        cases i with
        | zero =>
          simp at h
          subst h
          refine ⟨s, by simp, hst, by simp, rfl, ?_⟩
          intro R hR
          simp [debugger_steps.regs_after, hR]
        | succ j => simp at h
      · rw [debugger_steps.wait_loop_stepped child s rest regs ic hst hr] at h
        rw [records_append, debugger_steps.records_pass] at h
        cases i with
        | zero =>
          simp at h
          subst h
          refine ⟨s, by simp, hst, by simp, rfl, ?_⟩
          intro R hR
          simp [debugger_steps.regs_after, hR]
        | succ j =>
          simp at h
          obtain ⟨s', h1, h2, h3, h4, h5⟩ := ih _ _ j r h
          refine ⟨s', by simpa using h1, h2, ?_, h4, h5⟩
          rw [h3]
          omega

/-- A run of the loop over a script that starts with stops on which the
single-step is accepted makes one pass for each of them and goes on with the
rest of the script. -/
theorem debugger_steps.wait_loop_append (child : Int) :
    ∀ (pre tl : List debugger_steps.Stop) (regs : user_regs_struct) (ic : Nat),
      ic < 2 ^ 32 →
      (∀ p ∈ pre, WIFSTOPPED p.wait.status = true ∧ ¬ p.step < 0) →
      debugger_steps.wait_loop child (pre ++ tl) regs ic =
        (debugger_steps.passes child pre regs ic ++
            (debugger_steps.wait_loop child tl (debugger_steps.regs_through pre regs)
              ((ic + pre.length) % 2 ^ 32)).1,
          (debugger_steps.wait_loop child tl (debugger_steps.regs_through pre regs)
              ((ic + pre.length) % 2 ^ 32)).2) := by
  intro pre
  induction pre with
  | nil =>
    intro tl regs ic hic _
    have e : (ic + 0) % 2 ^ 32 = ic := by omega
    simp only [List.nil_append, List.length_nil, e, debugger_steps.passes,
      debugger_steps.regs_through]
  | cons p pre ih =>
    intro tl regs ic hic h
    have hp := h p (List.mem_cons_self p pre)
    have hrest : ∀ q ∈ pre, WIFSTOPPED q.wait.status = true ∧ ¬ q.step < 0 :=
      fun q hq => h q (List.mem_cons_of_mem p hq)
    have e : ((ic + 1) % 2 ^ 32 + pre.length) % 2 ^ 32 = (ic + (pre.length + 1)) % 2 ^ 32 := by
      omega
    have hlt : (ic + 1) % 2 ^ 32 < 2 ^ 32 := Nat.mod_lt _ (by norm_num)
    rw [List.cons_append, debugger_steps.wait_loop_stepped child p (pre ++ tl) regs ic hp.1 hp.2,
      ih tl _ _ hlt hrest]
    simp only [debugger_steps.passes, debugger_steps.regs_through, List.length_cons,
      List.append_assoc, e]

theorem debugger_steps.records_passes (child : Int) :
    ∀ (pre : List debugger_steps.Stop) (regs : user_regs_struct) (ic : Nat),
      (records (debugger_steps.passes child pre regs ic)).length = pre.length := by
  intro pre
  induction pre with
  | nil => intro regs ic; simp [debugger_steps.passes, records]
  | cons p pre ih =>
    intro regs ic
    simp only [debugger_steps.passes, records_append, debugger_steps.records_pass,
      List.length_append, List.length_cons, List.length_nil, ih]
    omega

theorem peeks_append (a b : List Event) : peeks (a ++ b) = peeks a ++ peeks b := by
  simp [peeks]

theorem debugger_steps.peeks_pass (child : Int) (s : debugger_steps.Stop)
    (regs : user_regs_struct) (ic : Nat) :
    peeks (debugger_steps.pass child s regs ic) =
      [(child, (debugger_steps.regs_after s regs).rip)] := by
  simp [peeks, peek_of, debugger_steps.pass]

theorem debugger_steps.peeks_passes (child : Int) :
    ∀ (pre : List debugger_steps.Stop) (regs : user_regs_struct) (ic : Nat),
      (peeks (debugger_steps.passes child pre regs ic)).length = pre.length := by
  intro pre
  induction pre with
  | nil => intro regs ic; simp [debugger_steps.passes, peeks]
  | cons p pre ih =>
    intro regs ic
    simp only [debugger_steps.passes, peeks_append, debugger_steps.peeks_pass,
      List.length_append, List.length_cons, List.length_nil, ih]
    omega

/-- A run of the loop on a *stopped* status starts with a pass of the loop
body. -/
theorem debugger_steps.wait_loop_stopped (child : Int) (s : debugger_steps.Stop)
    (rest : List debugger_steps.Stop) (regs : user_regs_struct) (ic : Nat)
    (h : WIFSTOPPED s.wait.status = true) :
    ∃ t, (debugger_steps.wait_loop child (s :: rest) regs ic).1 =
      debugger_steps.pass child s regs ic ++ t := by
  by_cases hr : s.step < 0
  · exact ⟨_, by rw [debugger_steps.wait_loop_rejected child s rest regs ic h hr]⟩
  · exact ⟨_, by rw [debugger_steps.wait_loop_stepped child s rest regs ic h hr]⟩

/-- The trace of the single-step driver on a script that reaches the stop `s`
after the stops of `pre`: the banner, the passes over `pre`, the pass over
`s`, and what follows. -/
theorem debugger_steps.trace_reaching (child : Int) (k : debugger_steps.Kernel)
    (pre : List debugger_steps.Stop) (s : debugger_steps.Stop)
    (rest : List debugger_steps.Stop)
    (hk : k.script = pre ++ s :: rest)
    (hpre : ∀ p ∈ pre, WIFSTOPPED p.wait.status = true ∧ ¬ p.step < 0)
    (hs : WIFSTOPPED s.wait.status = true) :
    ∃ t, (debugger_steps.do_debugger child k).1 =
      Event.printf "In debugger process %ld\n" [k.getpid] ::
        (debugger_steps.passes child pre k.regs0 0 ++
          (debugger_steps.pass child s (debugger_steps.regs_through pre k.regs0)
            ((0 + pre.length) % 2 ^ 32) ++ t)) := by
  obtain ⟨t, ht⟩ := debugger_steps.wait_loop_stopped child s rest
    (debugger_steps.regs_through pre k.regs0) ((0 + pre.length) % 2 ^ 32) hs
  refine ⟨t, ?_⟩
  unfold debugger_steps.do_debugger
  rw [hk, debugger_steps.wait_loop_append child pre (s :: rest) k.regs0 0 (by norm_num) hpre]
  simp only [ht]

theorem records_banner (pid : Nat) (t : List Event) :
    records (Event.printf "In debugger process %ld\n" [pid] :: t) = records t := by
  simp [records, record_of]

theorem peeks_banner (pid : Nat) (t : List Event) :
    peeks (Event.printf "In debugger process %ld\n" [pid] :: t) = peeks t := by
  simp [peeks, peek_of]

/-- The record and the peek of the pass over a stop that the script reaches. -/
theorem debugger_steps.record_reaching (child : Int) (k : debugger_steps.Kernel)
    (pre : List debugger_steps.Stop) (s : debugger_steps.Stop)
    (rest : List debugger_steps.Stop)
    (hk : k.script = pre ++ s :: rest)
    (hpre : ∀ p ∈ pre, WIFSTOPPED p.wait.status = true ∧ ¬ p.step < 0)
    (hs : WIFSTOPPED s.wait.status = true) :
    (records (debugger_steps.do_debugger child k).1)[pre.length]? =
        some ((pre.length + 1) % 2 ^ 32,
          (debugger_steps.regs_after s (debugger_steps.regs_through pre k.regs0)).rip,
          long_to_unsigned (peek_result s.peek)) ∧
    (peeks (debugger_steps.do_debugger child k).1)[pre.length]? =
        some (child, (debugger_steps.regs_after s (debugger_steps.regs_through pre k.regs0)).rip) := by
  obtain ⟨t, ht⟩ := debugger_steps.trace_reaching child k pre s rest hk hpre hs
  have e : ((0 + pre.length) % 2 ^ 32 + 1) % 2 ^ 32 = (pre.length + 1) % 2 ^ 32 := by omega
  constructor
  · rw [ht, records_banner, records_append, records_append, debugger_steps.records_pass,
      List.getElem?_append_right (by rw [debugger_steps.records_passes]),
      debugger_steps.records_passes, Nat.sub_self, e]
    simp
  · rw [ht, peeks_banner, peeks_append, peeks_append, debugger_steps.peeks_pass,
      List.getElem?_append_right (by rw [debugger_steps.peeks_passes]),
      debugger_steps.peeks_passes, Nat.sub_self]
    simp

theorem debugger_steps.single_steps_passes (child : Int) :
    ∀ (pre : List debugger_steps.Stop) (regs : user_regs_struct) (ic : Nat),
      single_steps (debugger_steps.passes child pre regs ic) = pre.length := by
  intro pre
  induction pre with
  | nil => intro regs ic; simp [debugger_steps.passes, single_steps]
  | cons p pre ih =>
    intro regs ic
    have h := ih (debugger_steps.regs_after p regs) ((ic + 1) % 2 ^ 32)
    simp only [single_steps] at h
    simp only [debugger_steps.passes, single_steps, List.countP_append, h, List.length_cons]
    simp [debugger_steps.pass, is_single_step, List.countP_cons]
    omega

theorem debugger_steps.wait_loop_ends (child : Int) :
    ∀ (script : List debugger_steps.Stop) (regs : user_regs_struct) (ic : Nat),
      (debugger_steps.wait_loop child script regs ic).2 = Outcome.returned ∨
      (debugger_steps.wait_loop child script regs ic).2 = Outcome.blocked := by
  intro script
  induction script with
  | nil => intro regs ic; simp [debugger_steps.wait_loop]
  | cons s rest ih =>
    intro regs ic
    cases hst : WIFSTOPPED s.wait.status with
    | false =>
      rw [debugger_steps.wait_loop_unstopped child s rest regs ic hst]
      cases rest <;> simp [debugger_steps.after_loop]
    | true =>
      by_cases hr : s.step < 0
      · rw [debugger_steps.wait_loop_rejected child s rest regs ic hst hr]
        simp
      · rw [debugger_steps.wait_loop_stepped child s rest regs ic hst hr]
        exact ih _ _

/-! ## The single-step driver: claims -/

/-- C6, counterexample: in the session `debugger_steps.short_run` the peek of
the first step returns the 8-byte word `0x8949ed31fa1e0ff3` and the record of
that step carries `0xfa1e0ff3`, its low four bytes only. -/
theorem C6_counterexample :
    debugger_steps.short_run.script.map (fun s => s.peek) =
      [some 0x8949ed31fa1e0ff3, some 0xe48348e289485ed1, none, none] ∧
    records (debugger_steps.do_debugger 4001 debugger_steps.short_run).1 =
      [(1, 0x400a30, 0xfa1e0ff3), (2, 0x400a34, 0x89485ed1)] ∧
    (0xfa1e0ff3 : Nat) ≠ 0x8949ed31fa1e0ff3 := by
  refine ⟨rfl, ?_, by decide⟩
  decide

/-- C6, amended: in the single-step driver, for every register file `R` that
get-registers returns and every text word `W` that the peek returns at a stop
the session reaches, the peek is made at the instruction pointer of `R`, and
the record emitted for that step carries the instruction pointer of `R` and
the low four bytes of `W`, that is `W mod 2 ^ 32`. -/
theorem C6_record_carries_rip_and_low_half (child : Int) (k : debugger_steps.Kernel)
    (pre : List debugger_steps.Stop) (s : debugger_steps.Stop)
    (rest : List debugger_steps.Stop) (R : user_regs_struct) (W : Nat)
    (hk : k.script = pre ++ s :: rest)
    (hpre : ∀ p ∈ pre, WIFSTOPPED p.wait.status = true ∧ ¬ p.step < 0)
    (hs : WIFSTOPPED s.wait.status = true)
    (hg : s.getregs = some R) (hp : s.peek = some W) :
    (peeks (debugger_steps.do_debugger child k).1)[pre.length]? = some (child, R.rip) ∧
    ∃ c, (records (debugger_steps.do_debugger child k).1)[pre.length]? =
      some (c, R.rip, W % 2 ^ 32) := by
  have h := debugger_steps.record_reaching child k pre s rest hk hpre hs
  have hr : (debugger_steps.regs_after s (debugger_steps.regs_through pre k.regs0)).rip = R.rip := by
    simp [debugger_steps.regs_after, hg]
  rw [hr, hp] at h
  exact ⟨h.2, _, h.1⟩

/-- Witness of C6, amended: the second step of `debugger_steps.short_run`. -/
theorem C6_record_carries_rip_and_low_half_witness :
    debugger_steps.short_run.script =
      [debugger_steps.first_stop] ++ debugger_steps.second_stop ::
        [debugger_steps.exit_stop, debugger_steps.no_child] ∧
    (∀ p ∈ [debugger_steps.first_stop], WIFSTOPPED p.wait.status = true ∧ ¬ p.step < 0) ∧
    WIFSTOPPED debugger_steps.second_stop.wait.status = true ∧
    debugger_steps.second_stop.getregs =
      some { user_regs_struct.zero with rip := 0x400a34, rsp := 0x7ffc0000 } ∧
    debugger_steps.second_stop.peek = some 0xe48348e289485ed1 ∧
    ((peeks (debugger_steps.do_debugger 4001 debugger_steps.short_run).1)[1]? =
        some (4001, 0x400a34) ∧
      ∃ c, (records (debugger_steps.do_debugger 4001 debugger_steps.short_run).1)[1]? =
        some (c, 0x400a34, 0xe48348e289485ed1 % 2 ^ 32)) :=
  ⟨rfl, by decide, rfl, rfl, rfl,
    C6_record_carries_rip_and_low_half 4001 debugger_steps.short_run
      [debugger_steps.first_stop] debugger_steps.second_stop
      [debugger_steps.exit_stop, debugger_steps.no_child]
      { user_regs_struct.zero with rip := 0x400a34, rsp := 0x7ffc0000 }
      0xe48348e289485ed1 rfl (by decide) rfl rfl rfl⟩

/-- C7, counterexample: in the session `debugger_steps.long_session`, of
`2 ^ 32` steps, the record number `2 ^ 32` (at index `2 ^ 32 - 1`) carries the
counter `0`, which is less than the counter of the record before it. -/
theorem C7_counterexample :
    ((records (debugger_steps.do_debugger 4001 debugger_steps.long_session).1)[4294967295]?).map
      Prod.fst = some 0 := by
  have hpre : ∀ p ∈ List.replicate 4294967295 debugger_steps.first_stop,
      WIFSTOPPED p.wait.status = true ∧ ¬ p.step < 0 := by
    intro p hp
    rw [List.eq_of_mem_replicate hp]
    decide
  have h := (debugger_steps.record_reaching 4001 debugger_steps.long_session
    (List.replicate 4294967295 debugger_steps.first_stop) debugger_steps.first_stop
    [debugger_steps.exit_stop, debugger_steps.no_child] rfl hpre rfl).1
  rw [List.length_replicate] at h
  rw [h]
  rfl

/-- C7, amended: in the single-step driver, for every session and every
`n >= 1`, the `n`-th record emitted carries the counter `n mod 2 ^ 32`, the
counter being an `unsigned`: it is `n` as long as `n < 2 ^ 32`, so the first
record carries `1`, and each later record carries the counter of the record
before it plus one, modulo `2 ^ 32`. -/
theorem C7_counter_counts_modulo (child : Int) (k : debugger_steps.Kernel) (i : Nat)
    (r : Nat × Nat × Nat)
    (h : (records (debugger_steps.do_debugger child k).1)[i]? = some r) :
    r.1 = (i + 1) % 2 ^ 32 ∧
    (i + 1 < 2 ^ 32 → r.1 = i + 1) ∧
    (∀ r', (records (debugger_steps.do_debugger child k).1)[i + 1]? = some r' →
      r'.1 = (r.1 + 1) % 2 ^ 32) := by
  have key : ∀ (j : Nat) (q : Nat × Nat × Nat),
      (records (debugger_steps.do_debugger child k).1)[j]? = some q →
      q.1 = (j + 1) % 2 ^ 32 := by
    intro j q hq
    unfold debugger_steps.do_debugger at hq
    rw [records_banner] at hq
    obtain ⟨s, _, _, hc, _, _⟩ := debugger_steps.record_at child k.script k.regs0 0 j q hq
    rw [hc]
    simp
  have h1 := key i r h
  refine ⟨h1, ?_, ?_⟩
  · intro hlt
    rw [h1]
    exact Nat.mod_eq_of_lt hlt
  · intro r' hr'
    rw [key (i + 1) r' hr', h1]
    omega

/-- Witness of C7, amended: the second record of `debugger_steps.short_run`. -/
theorem C7_counter_counts_modulo_witness :
    (records (debugger_steps.do_debugger 4001 debugger_steps.short_run).1)[1]? =
      some (2, 0x400a34, 0x89485ed1) ∧
    ((2, 0x400a34, 0x89485ed1) : Nat × Nat × Nat).1 = (1 + 1) % 2 ^ 32 ∧
    (1 + 1 < 2 ^ 32 → ((2, 0x400a34, 0x89485ed1) : Nat × Nat × Nat).1 = 1 + 1) ∧
    (∀ r', (records (debugger_steps.do_debugger 4001 debugger_steps.short_run).1)[1 + 1]? =
        some r' →
      r'.1 = (((2, 0x400a34, 0x89485ed1) : Nat × Nat × Nat).1 + 1) % 2 ^ 32) :=
  ⟨by decide,
    C7_counter_counts_modulo 4001 debugger_steps.short_run 1 (2, 0x400a34, 0x89485ed1)
      (by decide)⟩

theorem debugger_steps.single_steps_after_loop (rest : List debugger_steps.Stop) :
    single_steps (debugger_steps.after_loop rest).1 = 0 := by
  cases rest with
  | nil => simp [debugger_steps.after_loop, single_steps, is_single_step]
  | cons s tl =>
    unfold debugger_steps.after_loop
    cases h1 : WIFSTOPPED s.wait.status <;> cases h2 : WIFEXITED s.wait.status <;>
      simp [single_steps, is_single_step]

theorem debugger_steps.loop_follows_unstopped (s : debugger_steps.Stop)
    (rest : List debugger_steps.Stop) (h : WIFSTOPPED s.wait.status = false) :
    loop_follows_statuses (Event.wait (some s.wait) :: (debugger_steps.after_loop rest).1) := by
  have h1 := debugger_steps.records_after_loop rest
  have h2 := debugger_steps.single_steps_after_loop rest
  have h3 := debugger_steps.tracing_after_loop rest
  have e : (!ends_loop (Event.wait (some s.wait))) = false := by simp [ends_loop, h]
  refine ⟨?_, ?_, ?_, ?_⟩
  · simp only [records, delivered, List.filterMap_cons, record_of, status_of,
      List.takeWhile_cons, h] at h1 ⊢
    simp [h1]
  · simp only [single_steps, delivered, List.filterMap_cons, status_of,
      List.takeWhile_cons, h, List.countP_cons, is_single_step] at h2 ⊢
    simp [h2]
  · have hd : (Event.wait (some s.wait) :: (debugger_steps.after_loop rest).1).dropWhile
        (fun e => !ends_loop e) =
        Event.wait (some s.wait) :: (debugger_steps.after_loop rest).1 := by
      simp [List.dropWhile_cons, e]
    rw [hd]
    have hw : records (Event.wait (some s.wait) :: (debugger_steps.after_loop rest).1) =
        records (debugger_steps.after_loop rest).1 := by
      simp [records, record_of]
    rw [hw, h1]
  · have hd : (Event.wait (some s.wait) :: (debugger_steps.after_loop rest).1).dropWhile
        (fun e => !ends_loop e) =
        Event.wait (some s.wait) :: (debugger_steps.after_loop rest).1 := by
      simp [List.dropWhile_cons, e]
    rw [hd]
    have hw : (Event.wait (some s.wait) :: (debugger_steps.after_loop rest).1).filter is_tracing =
        (debugger_steps.after_loop rest).1.filter is_tracing := by
      simp [is_tracing]
    rw [hw, h3]

theorem debugger_steps.loop_follows_pass (child : Int) (s : debugger_steps.Stop)
    (regs : user_regs_struct) (ic : Nat) (t : List Event)
    (h : WIFSTOPPED s.wait.status = true) :
    (records (debugger_steps.pass child s regs ic ++ t)).length = (records t).length + 1 ∧
    single_steps (debugger_steps.pass child s regs ic ++ t) = single_steps t + 1 ∧
    (delivered (debugger_steps.pass child s regs ic ++ t)).takeWhile WIFSTOPPED =
      s.wait.status :: (delivered t).takeWhile WIFSTOPPED ∧
    (debugger_steps.pass child s regs ic ++ t).dropWhile (fun e => !ends_loop e) =
      t.dropWhile (fun e => !ends_loop e) := by
  refine ⟨?_, ?_, ?_, ?_⟩
  · rw [records_append, debugger_steps.records_pass]
    simp [Nat.add_comm]
  · simp [single_steps, debugger_steps.pass, is_single_step, List.countP_cons]
  · simp [delivered, debugger_steps.pass, status_of, List.takeWhile_cons, h]
  · simp [debugger_steps.pass, List.dropWhile_cons, ends_loop, h]

theorem debugger_steps.loop_follows_wait_loop (child : Int) :
    ∀ (script : List debugger_steps.Stop) (regs : user_regs_struct) (ic : Nat),
      loop_follows_statuses (debugger_steps.wait_loop child script regs ic).1 := by
  intro script
  induction script with
  | nil =>
    intro regs ic
    simp [loop_follows_statuses, debugger_steps.wait_loop, records, record_of, delivered,
      status_of, single_steps, is_single_step, ends_loop, is_tracing]
  | cons s rest ih =>
    intro regs ic
    cases hst : WIFSTOPPED s.wait.status with
    | false =>
      rw [debugger_steps.wait_loop_unstopped child s rest regs ic hst]
      exact debugger_steps.loop_follows_unstopped s rest hst
    | true =>
      by_cases hr : s.step < 0
      · rw [debugger_steps.wait_loop_rejected child s rest regs ic hst hr]
        obtain ⟨p1, p2, p3, p4⟩ := debugger_steps.loop_follows_pass child s regs ic
          [Event.perror "ptrace"] hst
        refine ⟨?_, ?_, ?_, ?_⟩
        · rw [p1, p3]
          simp [records, record_of, delivered, status_of]
        · rw [p2, p3]
          simp [single_steps, is_single_step, delivered, status_of]
        · rw [p4]
          simp [records, record_of, ends_loop]
        · rw [p4]
          simp [ends_loop, is_tracing]
      · rw [debugger_steps.wait_loop_stepped child s rest regs ic hst hr]
        obtain ⟨p1, p2, p3, p4⟩ := debugger_steps.loop_follows_pass child s regs ic
          (debugger_steps.wait_loop child rest (debugger_steps.regs_after s regs)
            ((ic + 1) % 2 ^ 32)).1 hst
        obtain ⟨q1, q2, q3, q4⟩ := ih (debugger_steps.regs_after s regs) ((ic + 1) % 2 ^ 32)
        refine ⟨?_, ?_, ?_, ?_⟩
        · rw [p1, p3, q1]
          simp
        · rw [p2, p3, q2]
          simp
        · rw [p4]
          exact q3
        · rw [p4]
          exact q4

theorem loop_follows_banner (pid : Nat) (t : List Event) (h : loop_follows_statuses t) :
    loop_follows_statuses (Event.printf "In debugger process %ld\n" [pid] :: t) := by
  obtain ⟨h1, h2, h3, h4⟩ := h
  have hd : (Event.printf "In debugger process %ld\n" [pid] :: t).dropWhile
      (fun e => !ends_loop e) = t.dropWhile (fun e => !ends_loop e) := by
    simp [List.dropWhile_cons, ends_loop]
  have hv : delivered (Event.printf "In debugger process %ld\n" [pid] :: t) = delivered t := by
    simp [delivered, status_of]
  have hc : single_steps (Event.printf "In debugger process %ld\n" [pid] :: t) =
      single_steps t := by
    simp [single_steps, is_single_step, List.countP_cons]
  refine ⟨?_, ?_, ?_, ?_⟩
  · rw [records_banner, hv, h1]
  · rw [hc, hv, h2]
  · rw [hd, h3]
  · rw [hd, h4]

theorem marks_append (a b : List Event) : marks (a ++ b) = marks a ++ marks b := by
  simp [marks]

theorem delivered_append (a b : List Event) :
    delivered (a ++ b) = delivered a ++ delivered b := by
  simp [delivered]

theorem single_steps_append (a b : List Event) :
    single_steps (a ++ b) = single_steps a + single_steps b := by
  simp [single_steps]

theorem debugger_steps.marks_passes (child : Int) :
    ∀ (pre : List debugger_steps.Stop) (regs : user_regs_struct) (ic : Nat),
      marks (debugger_steps.passes child pre regs ic) = marks_of_passes pre := by
  intro pre
  induction pre with
  | nil => intro regs ic; simp [debugger_steps.passes, marks, marks_of_passes]
  | cons p pre ih =>
    intro regs ic
    rw [debugger_steps.passes, marks_append, ih, marks_of_passes]
    simp [marks, mark_of, status_of, record_of, is_single_step, debugger_steps.pass]

theorem debugger_steps.delivered_passes (child : Int) :
    ∀ (pre : List debugger_steps.Stop) (regs : user_regs_struct) (ic : Nat),
      delivered (debugger_steps.passes child pre regs ic) =
        pre.map (fun p => p.wait.status) := by
  intro pre
  induction pre with
  | nil => intro regs ic; simp [debugger_steps.passes, delivered]
  | cons p pre ih =>
    intro regs ic
    rw [debugger_steps.passes, delivered_append, ih]
    simp [delivered, status_of, debugger_steps.pass]

/-- The code after the loop delivers the status of one more stop, when there is
one, and leaves neither a record nor a single-step. -/
theorem debugger_steps.marks_after_loop (rest : List debugger_steps.Stop) :
    marks (debugger_steps.after_loop rest).1 =
      (rest.take 1).map (fun p => Mark.waited p.wait.status) ∧
    delivered (debugger_steps.after_loop rest).1 =
      (rest.take 1).map (fun p => p.wait.status) := by
  cases rest with
  | nil => simp [debugger_steps.after_loop, marks, mark_of, delivered, status_of, record_of,
      is_single_step]
  | cons s tl =>
    unfold debugger_steps.after_loop
    cases h1 : WIFSTOPPED s.wait.status <;> cases h2 : WIFEXITED s.wait.status <;>
      simp [marks, mark_of, delivered, status_of, record_of, is_single_step, h1, h2]

/-- A run of the loop on a script that is empty or starts with a status that is
not *stopped*: the statuses of at most two stops are delivered, the one that
ends the loop and the one of the wait after the loop, and there is neither a
record nor a single-step. -/
theorem debugger_steps.marks_loop_end (child : Int) (tl : List debugger_steps.Stop)
    (regs : user_regs_struct) (ic : Nat)
    (h : ∀ s, tl.head? = some s → WIFSTOPPED s.wait.status = false) :
    marks (debugger_steps.wait_loop child tl regs ic).1 =
      (tl.take 2).map (fun p => Mark.waited p.wait.status) ∧
    delivered (debugger_steps.wait_loop child tl regs ic).1 =
      (tl.take 2).map (fun p => p.wait.status) ∧
    records (debugger_steps.wait_loop child tl regs ic).1 = [] ∧
    single_steps (debugger_steps.wait_loop child tl regs ic).1 = 0 := by
  cases tl with
  | nil =>
    simp [debugger_steps.wait_loop, marks, mark_of, delivered, status_of, record_of,
      is_single_step, records, single_steps]
  | cons s rest =>
    have hst : WIFSTOPPED s.wait.status = false := h s rfl
    rw [debugger_steps.wait_loop_unstopped child s rest regs ic hst]
    obtain ⟨m1, m2⟩ := debugger_steps.marks_after_loop rest
    have r1 := debugger_steps.records_after_loop rest
    have r2 := debugger_steps.single_steps_after_loop rest
    refine ⟨?_, ?_, ?_, ?_⟩
    · have e : marks (Event.wait (some s.wait) :: (debugger_steps.after_loop rest).1) =
          Mark.waited s.wait.status :: marks (debugger_steps.after_loop rest).1 := by
        simp [marks, mark_of, status_of]
      rw [e, m1]
      cases rest <;> simp
    · have e : delivered (Event.wait (some s.wait) :: (debugger_steps.after_loop rest).1) =
          s.wait.status :: delivered (debugger_steps.after_loop rest).1 := by
        simp [delivered, status_of]
      rw [e, m2]
      cases rest <;> simp
    · have e : records (Event.wait (some s.wait) :: (debugger_steps.after_loop rest).1) =
          records (debugger_steps.after_loop rest).1 := by
        simp [records, record_of]
      rw [e, r1]
    · have e : single_steps (Event.wait (some s.wait) :: (debugger_steps.after_loop rest).1) =
          single_steps (debugger_steps.after_loop rest).1 := by
        simp [single_steps, is_single_step]
      rw [e, r2]

theorem marks_banner (pid : Nat) (t : List Event) :
    marks (Event.printf "In debugger process %ld\n" [pid] :: t) = marks t := by
  simp [marks, mark_of, status_of, record_of, is_single_step]

theorem delivered_banner (pid : Nat) (t : List Event) :
    delivered (Event.printf "In debugger process %ld\n" [pid] :: t) = delivered t := by
  simp [delivered, status_of]

theorem single_steps_banner (pid : Nat) (t : List Event) :
    single_steps (Event.printf "In debugger process %ld\n" [pid] :: t) = single_steps t := by
  simp [single_steps, is_single_step]

theorem records_length_append (a b : List Event) :
    (records (a ++ b)).length = (records a).length + (records b).length := by
  rw [records_append, List.length_append]

/-- The trace of the single-step driver on a script whose longest all-stopped
run of stops is `pre`, each with an accepted single-step. -/
theorem debugger_steps.loop_over_stopped_run (child : Int) (k : debugger_steps.Kernel)
    (pre tl : List debugger_steps.Stop)
    (hk : k.script = pre ++ tl)
    (hpre : ∀ p ∈ pre, WIFSTOPPED p.wait.status = true ∧ ¬ p.step < 0)
    (htl : ∀ s, tl.head? = some s → WIFSTOPPED s.wait.status = false) :
    marks (debugger_steps.do_debugger child k).1 =
      marks_of_passes pre ++ (tl.take 2).map (fun p => Mark.waited p.wait.status) ∧
    delivered (debugger_steps.do_debugger child k).1 =
      (pre ++ tl.take 2).map (fun p => p.wait.status) ∧
    (records (debugger_steps.do_debugger child k).1).length = pre.length ∧
    single_steps (debugger_steps.do_debugger child k).1 = pre.length := by
  have hw := debugger_steps.wait_loop_append child pre tl k.regs0 0 (by norm_num) hpre
  obtain ⟨e1, e2, e3, e4⟩ := debugger_steps.marks_loop_end child tl
    (debugger_steps.regs_through pre k.regs0) ((0 + pre.length) % 2 ^ 32) htl
  unfold debugger_steps.do_debugger
  rw [hk, hw]
  refine ⟨?_, ?_, ?_, ?_⟩
  · rw [marks_banner, marks_append, debugger_steps.marks_passes, e1]
  · rw [delivered_banner, delivered_append, debugger_steps.delivered_passes, e2,
      List.map_append]
  · rw [records_banner, records_length_append, debugger_steps.records_passes, e3]
    simp
  · rw [single_steps_banner, single_steps_append, debugger_steps.single_steps_passes, e4]
    simp

/-- The trace of the single-step driver on a script in which the single-step is
rejected at the stop `s`, reached after the stops of `pre`. -/
theorem debugger_steps.loop_until_rejected (child : Int) (k : debugger_steps.Kernel)
    (pre : List debugger_steps.Stop) (s : debugger_steps.Stop)
    (rest : List debugger_steps.Stop)
    (hk : k.script = pre ++ s :: rest)
    (hpre : ∀ p ∈ pre, WIFSTOPPED p.wait.status = true ∧ ¬ p.step < 0)
    (hs : WIFSTOPPED s.wait.status = true) (hr : s.step < 0) :
    marks (debugger_steps.do_debugger child k).1 = marks_of_passes (pre ++ [s]) ∧
    delivered (debugger_steps.do_debugger child k).1 =
      (pre ++ [s]).map (fun p => p.wait.status) ∧
    (records (debugger_steps.do_debugger child k).1).length = pre.length + 1 ∧
    single_steps (debugger_steps.do_debugger child k).1 = pre.length + 1 := by
  have hw := debugger_steps.wait_loop_append child pre (s :: rest) k.regs0 0 (by norm_num) hpre
  rw [debugger_steps.wait_loop_rejected child s rest _ _ hs hr] at hw
  have hm : ∀ l : List debugger_steps.Stop,
      marks_of_passes (l ++ [s]) =
        marks_of_passes l ++ [Mark.waited s.wait.status, Mark.record, Mark.step] := by
    intro l
    induction l with
    | nil => simp [marks_of_passes]
    | cons x l ih => simp [marks_of_passes, ih]
  unfold debugger_steps.do_debugger
  rw [hk, hw]
  refine ⟨?_, ?_, ?_, ?_⟩
  · rw [marks_banner, marks_append, debugger_steps.marks_passes, hm]
    simp [marks, mark_of, status_of, record_of, is_single_step, debugger_steps.pass]
  · rw [delivered_banner, delivered_append, debugger_steps.delivered_passes, List.map_append]
    simp [delivered, status_of, debugger_steps.pass]
  · rw [records_banner, records_length_append, debugger_steps.records_passes, records_append,
      debugger_steps.records_pass]
    simp [records, record_of]
  · rw [single_steps_banner, single_steps_append, debugger_steps.single_steps_passes]
    simp [single_steps, is_single_step, debugger_steps.pass]

/-- C8: in the single-step driver, for every sequence of wait statuses
delivered to the tracer, the driver emits one record and issues one
single-step for each status of the longest prefix of statuses that are all
*stopped*, and from the first status that is not *stopped* on it emits no
record and issues no tracing primitive; when the status of the initial wait is
not *stopped*, no record is emitted and no tracing primitive is issued.

On the kernel's script: when the stops of `pre` are the longest run of
*stopped* statuses at the head of the script, the trace holds, for each stop of
`pre` in order, its status, one record and one single-step, then the status
that ends the loop and that of the wait after the loop, and nothing else of
the kind; when the single-step is rejected at a stop, the trace ends with the
record and the single-step of that stop. -/
theorem C8_loop_follows_stopped_statuses (child : Int) (k : debugger_steps.Kernel) :
    (records (debugger_steps.do_debugger child k).1).length =
      ((delivered (debugger_steps.do_debugger child k).1).takeWhile WIFSTOPPED).length ∧
    single_steps (debugger_steps.do_debugger child k).1 =
      ((delivered (debugger_steps.do_debugger child k).1).takeWhile WIFSTOPPED).length ∧
    records ((debugger_steps.do_debugger child k).1.dropWhile (fun e => !ends_loop e)) = [] ∧
    ((debugger_steps.do_debugger child k).1.dropWhile (fun e => !ends_loop e)).filter
      is_tracing = [] ∧
    (∀ s, k.script.head? = some s → WIFSTOPPED s.wait.status = false →
      (delivered (debugger_steps.do_debugger child k).1).head? = some s.wait.status ∧
      records (debugger_steps.do_debugger child k).1 = [] ∧
      (debugger_steps.do_debugger child k).1.filter is_tracing = []) ∧
    (∀ pre tl, k.script = pre ++ tl →
      (∀ p ∈ pre, WIFSTOPPED p.wait.status = true ∧ ¬ p.step < 0) →
      (∀ s, tl.head? = some s → WIFSTOPPED s.wait.status = false) →
      marks (debugger_steps.do_debugger child k).1 =
        marks_of_passes pre ++ (tl.take 2).map (fun p => Mark.waited p.wait.status) ∧
      delivered (debugger_steps.do_debugger child k).1 =
        (pre ++ tl.take 2).map (fun p => p.wait.status) ∧
      (records (debugger_steps.do_debugger child k).1).length = pre.length ∧
      single_steps (debugger_steps.do_debugger child k).1 = pre.length) ∧
    (∀ pre s rest, k.script = pre ++ s :: rest →
      (∀ p ∈ pre, WIFSTOPPED p.wait.status = true ∧ ¬ p.step < 0) →
      WIFSTOPPED s.wait.status = true → s.step < 0 →
      marks (debugger_steps.do_debugger child k).1 = marks_of_passes (pre ++ [s]) ∧
      delivered (debugger_steps.do_debugger child k).1 =
        (pre ++ [s]).map (fun p => p.wait.status) ∧
      (records (debugger_steps.do_debugger child k).1).length = pre.length + 1 ∧
      single_steps (debugger_steps.do_debugger child k).1 = pre.length + 1) := by
  have h := loop_follows_banner k.getpid _
    (debugger_steps.loop_follows_wait_loop child k.script k.regs0 0)
  refine ⟨h.1, h.2.1, h.2.2.1, h.2.2.2, ?_,
    fun pre tl hk hpre htl => debugger_steps.loop_over_stopped_run child k pre tl hk hpre htl,
    fun pre s rest hk hpre hs hr =>
      debugger_steps.loop_until_rejected child k pre s rest hk hpre hs hr⟩
  intro s hs hst
  cases hsc : k.script with
  | nil => simp [hsc] at hs
  | cons s' rest =>
    simp [hsc] at hs
    subst hs
    unfold debugger_steps.do_debugger
    rw [hsc, debugger_steps.wait_loop_unstopped child s' rest k.regs0 0 hst]
    have h1 := debugger_steps.records_after_loop rest
    have h3 := debugger_steps.tracing_after_loop rest
    refine ⟨?_, ?_, ?_⟩
    · simp [delivered, status_of]
    · rw [records_banner]
      have hw : records (Event.wait (some s'.wait) :: (debugger_steps.after_loop rest).1) =
          records (debugger_steps.after_loop rest).1 := by
        simp [records, record_of]
      rw [hw, h1]
    · have hw : (Event.printf "In debugger process %ld\n" [k.getpid] ::
          Event.wait (some s'.wait) :: (debugger_steps.after_loop rest).1).filter is_tracing =
          (debugger_steps.after_loop rest).1.filter is_tracing := by
        simp [is_tracing]
      rw [hw, h3]

/-- Witness of C8: the session `debugger_steps.short_run`, in which two
*stopped* statuses are followed by *exited*: two records and two single-steps;
and the session `debugger_steps.dead_run`, in which the status of the initial
wait is *exited*: no record and no tracing primitive. -/
theorem C8_loop_follows_stopped_statuses_witness :
    (debugger_steps.short_run.script =
        [debugger_steps.first_stop, debugger_steps.second_stop] ++
          [debugger_steps.exit_stop, debugger_steps.no_child] ∧
      (∀ p ∈ [debugger_steps.first_stop, debugger_steps.second_stop],
        WIFSTOPPED p.wait.status = true ∧ ¬ p.step < 0) ∧
      (∀ s, [debugger_steps.exit_stop, debugger_steps.no_child].head? = some s →
        WIFSTOPPED s.wait.status = false) ∧
      marks (debugger_steps.do_debugger 4001 debugger_steps.short_run).1 =
        marks_of_passes [debugger_steps.first_stop, debugger_steps.second_stop] ++
          ([debugger_steps.exit_stop, debugger_steps.no_child].take 2).map
            (fun p => Mark.waited p.wait.status) ∧
      delivered (debugger_steps.do_debugger 4001 debugger_steps.short_run).1 =
        ([debugger_steps.first_stop, debugger_steps.second_stop] ++
          [debugger_steps.exit_stop, debugger_steps.no_child].take 2).map
            (fun p => p.wait.status) ∧
      (records (debugger_steps.do_debugger 4001 debugger_steps.short_run).1).length =
        [debugger_steps.first_stop, debugger_steps.second_stop].length ∧
      single_steps (debugger_steps.do_debugger 4001 debugger_steps.short_run).1 =
        [debugger_steps.first_stop, debugger_steps.second_stop].length) ∧
    (debugger_steps.dead_run.script.head? = some debugger_steps.exit_stop ∧
      WIFSTOPPED debugger_steps.exit_stop.wait.status = false ∧
      (delivered (debugger_steps.do_debugger 4001 debugger_steps.dead_run).1).head? =
        some debugger_steps.exit_stop.wait.status ∧
      records (debugger_steps.do_debugger 4001 debugger_steps.dead_run).1 = [] ∧
      (debugger_steps.do_debugger 4001 debugger_steps.dead_run).1.filter is_tracing = []) :=
  ⟨⟨rfl, by decide, by decide,
      (C8_loop_follows_stopped_statuses 4001 debugger_steps.short_run).2.2.2.2.2.1
        [debugger_steps.first_stop, debugger_steps.second_stop]
        [debugger_steps.exit_stop, debugger_steps.no_child] rfl (by decide) (by decide)⟩,
    ⟨rfl, rfl,
      (C8_loop_follows_stopped_statuses 4001 debugger_steps.dead_run).2.2.2.2.1
        debugger_steps.exit_stop rfl rfl⟩⟩

/-! ## Rejected requests -/

/-- C5, counterexample: in the run `debugger.rejected_run` the kernel rejects
the peek at arm time, and the breakpoint driver goes on with the poke, of the
word `0xffffffffffffffcc` derived from the `-1` the peek returned, and with
every later request; in the session `debugger_steps.deaf_run` the kernel
rejects get-registers and the peek, and the single-step driver emits a record
all the same. -/
theorem C5_counterexample :
    debugger.rejected_run.peek = none ∧
    (debugger.do_debugger 4001 debugger.rejected_run).1.filter
        (fun e => is_wait e || is_tracing e) =
      [Event.wait (some ⟨4001, .stopped 5⟩),
       Event.ptrace .PTRACE_PEEKTEXT 4001 0x400b5d 0,
       Event.ptrace .PTRACE_POKETEXT 4001 0x400b5d 0xffffffffffffffcc,
       Event.ptrace .PTRACE_CONT 4001 0 0,
       Event.wait (some ⟨4001, .stopped 5⟩),
       Event.ptrace .PTRACE_POKETEXT 4001 0x400b5d 0xffffffffffffffff,
       Event.getregs 4001,
       Event.setregs 4001 { user_regs_struct.zero with rip := 0x400b5d },
       Event.ptrace .PTRACE_CONT 4001 0 0,
       Event.wait (some ⟨4001, .stopped 5⟩)] ∧
    (debugger_steps.deaf_run.script.map (fun s => (s.getregs, s.peek))).head? =
      some (none, none) ∧
    records (debugger_steps.do_debugger 4001 debugger_steps.deaf_run).1 =
      [(1, 0, 0xffffffff)] := by
  refine ⟨rfl, ?_, rfl, by decide⟩
  rw [debugger.kernel_calls_do_debugger 4001 debugger.rejected_run rfl]
  decide

/-- C5, amended: in the single-step driver, whenever the kernel rejects a
single-step (the request returns a negative value), the session ends there:
the diagnostic of `perror` is emitted right after the request, nothing is
called after it, and `do_debugger` returns. -/
theorem C5_rejected_single_step_ends_session (child : Int) (k : debugger_steps.Kernel)
    (pre : List debugger_steps.Stop) (s : debugger_steps.Stop)
    (rest : List debugger_steps.Stop)
    (hk : k.script = pre ++ s :: rest)
    (hpre : ∀ p ∈ pre, WIFSTOPPED p.wait.status = true ∧ ¬ p.step < 0)
    (hs : WIFSTOPPED s.wait.status = true) (hr : s.step < 0) :
    (∃ t, (debugger_steps.do_debugger child k).1 =
      t ++ [Event.ptrace .PTRACE_SINGLESTEP child 0 0, Event.perror "ptrace"]) ∧
    single_steps (debugger_steps.do_debugger child k).1 = pre.length + 1 ∧
    (debugger_steps.do_debugger child k).2 = Outcome.returned := by
  have hw := debugger_steps.wait_loop_append child pre (s :: rest) k.regs0 0 (by norm_num) hpre
  rw [debugger_steps.wait_loop_rejected child s rest _ _ hs hr] at hw
  unfold debugger_steps.do_debugger
  rw [hk, hw]
  refine ⟨⟨Event.printf "In debugger process %ld\n" [k.getpid] ::
      (debugger_steps.passes child pre k.regs0 0 ++
        (debugger_steps.pass child s (debugger_steps.regs_through pre k.regs0)
          ((0 + pre.length) % 2 ^ 32)).take 4), ?_⟩, ?_, rfl⟩
  · simp [debugger_steps.pass]
  · simp only [single_steps, List.countP_cons, List.countP_append, is_single_step]
    have hp := debugger_steps.single_steps_passes child pre k.regs0 0
    simp only [single_steps] at hp
    rw [hp]
    simp [debugger_steps.pass, is_single_step, List.countP_cons]

/-- Witness of C5, amended: the session `debugger_steps.stuck_run`, in which the
kernel rejects the second single-step. -/
theorem C5_rejected_single_step_ends_session_witness :
    debugger_steps.stuck_run.script =
      [debugger_steps.first_stop] ++ debugger_steps.stuck_stop ::
        [debugger_steps.exit_stop, debugger_steps.no_child] ∧
    (∀ p ∈ [debugger_steps.first_stop], WIFSTOPPED p.wait.status = true ∧ ¬ p.step < 0) ∧
    WIFSTOPPED debugger_steps.stuck_stop.wait.status = true ∧
    debugger_steps.stuck_stop.step < 0 ∧
    ((∃ t, (debugger_steps.do_debugger 4001 debugger_steps.stuck_run).1 =
        t ++ [Event.ptrace .PTRACE_SINGLESTEP 4001 0 0, Event.perror "ptrace"]) ∧
      single_steps (debugger_steps.do_debugger 4001 debugger_steps.stuck_run).1 =
        [debugger_steps.first_stop].length + 1 ∧
      (debugger_steps.do_debugger 4001 debugger_steps.stuck_run).2 = Outcome.returned) :=
  ⟨rfl, by decide, rfl, by decide,
    C5_rejected_single_step_ends_session 4001 debugger_steps.stuck_run
      [debugger_steps.first_stop] debugger_steps.stuck_stop
      [debugger_steps.exit_stop, debugger_steps.no_child] rfl (by decide) rfl (by decide)⟩

/-! ## Lock-step -/

theorem is_tracing_of_is_resuming (e : Event) (h : is_resuming e = true) :
    is_tracing e = true := by
  cases e <;> simp [is_resuming, is_tracing] at h ⊢

theorem not_is_wait_of_is_tracing (e : Event) (h : is_tracing e = true) :
    is_wait e = false := by
  cases e <;> simp [is_wait, is_tracing] at h ⊢

/-- When the monitor accepts a trace in which a tracing primitive comes after
events none of which is a `wait`, a `wait` had been observed at the start and
none of these events is a resuming primitive. -/
theorem lock_step_from_no_wait :
    ∀ (a : List Event) (b : Bool) (e : Event) (c : List Event),
      lock_step_from b (a ++ e :: c) = true → is_tracing e = true →
      (∀ w ∈ a, is_wait w = false) →
      b = true ∧ ∀ x ∈ a, is_resuming x = false := by
  intro a
  induction a with
  | nil =>
    intro b e c h he _
    have hw := not_is_wait_of_is_tracing e he
    simp [lock_step_from, hw, he] at h
    exact ⟨h.1, by simp⟩
  | cons x a ih =>
    intro b e c h he hno
    have hx : is_wait x = false := hno x (List.mem_cons_self x a)
    have hno' : ∀ w ∈ a, is_wait w = false := fun w hw => hno w (List.mem_cons_of_mem x hw)
    cases hxt : is_tracing x with
    | true =>
      simp [lock_step_from, hx, hxt] at h
      obtain ⟨h1, h2⟩ := ih _ e c h.2 he hno'
      refine ⟨h.1, ?_⟩
      intro y hy
      rcases List.mem_cons.mp hy with rfl | hy
      · simpa using h1
      · exact h2 y hy
    | false =>
      simp [lock_step_from, hx, hxt] at h
      obtain ⟨h1, h2⟩ := ih _ e c h he hno'
      refine ⟨h1, ?_⟩
      intro y hy
      rcases List.mem_cons.mp hy with rfl | hy
      · cases hyr : is_resuming y with
        | false => rfl
        | true => rw [is_tracing_of_is_resuming y hyr] at hxt; cases hxt
      · exact h2 y hy

/-- The monitor accepts the rest of a trace it accepts, from some state. -/
theorem lock_step_from_suffix :
    ∀ (a : List Event) (b : Bool) (t : List Event),
      lock_step_from b (a ++ t) = true → ∃ b', lock_step_from b' t = true := by
  intro a
  induction a with
  | nil => intro b t h; exact ⟨b, h⟩
  | cons x a ih =>
    intro b t h
    cases hx : is_wait x with
    | true =>
      simp [lock_step_from, hx] at h
      exact ih _ t h
    | false =>
      cases hxt : is_tracing x with
      | true =>
        simp [lock_step_from, hx, hxt] at h
        exact ih _ t h.2
      | false =>
        simp [lock_step_from, hx, hxt] at h
        exact ih _ t h

/-- A trace the monitor accepts keeps the lock-step discipline. -/
theorem LockStep_of_lock_step (t : List Event) (h : lock_step t = true) : LockStep t := by
  constructor
  · intro a e c ht he
    by_contra hno
    have hno' : ∀ w ∈ a, is_wait w = false := by
      intro w hw
      cases hww : is_wait w with
      | false => rfl
      | true => exact absurd ⟨w, hw, hww⟩ hno
    rw [lock_step, ht] at h
    have := (lock_step_from_no_wait a false e c h he hno').1
    cases this
  · intro a e₁ b e₂ c ht h1 h2
    by_contra hno
    have hno' : ∀ w ∈ e₁ :: b, is_wait w = false := by
      intro w hw
      rcases List.mem_cons.mp hw with rfl | hw
      · exact not_is_wait_of_is_tracing w (is_tracing_of_is_resuming w h1)
      · cases hww : is_wait w with
        | false => rfl
        | true => exact absurd ⟨w, hw, hww⟩ hno
    rw [lock_step, ht] at h
    obtain ⟨b', hb'⟩ := lock_step_from_suffix a false _ h
    have hb'' : lock_step_from b' ((e₁ :: b) ++ e₂ :: c) = true := by simpa using hb'
    have := (lock_step_from_no_wait (e₁ :: b) b' e₂ c hb'' h2 hno').2 e₁
      (List.mem_cons_self e₁ b)
    rw [h1] at this
    cases this

theorem debugger.lock_step_breakpoint_driver (child : Int) (k : debugger.Kernel) :
    lock_step (debugger.do_debugger child k).1 = true := by
  unfold debugger.do_debugger
  cases hs : k.signal_ok
  · simp [lock_step, lock_step_from, is_wait, is_tracing, is_resuming]
  · cases h1 : WIFSTOPPED k.wait3.status <;> cases h2 : WIFEXITED k.wait3.status <;>
      simp [lock_step, lock_step_from, is_wait, is_tracing, is_resuming, h1, h2]

theorem debugger_steps.lock_step_after_loop (rest : List debugger_steps.Stop) (b : Bool) :
    lock_step_from b (debugger_steps.after_loop rest).1 = true := by
  cases rest with
  | nil => simp [debugger_steps.after_loop, lock_step_from, is_wait]
  | cons s tl =>
    unfold debugger_steps.after_loop
    cases h1 : WIFSTOPPED s.wait.status <;> cases h2 : WIFEXITED s.wait.status <;>
      simp [lock_step_from, is_wait, is_tracing, h1, h2]

theorem debugger_steps.lock_step_wait_loop (child : Int) :
    ∀ (script : List debugger_steps.Stop) (regs : user_regs_struct) (ic : Nat) (b : Bool),
      lock_step_from b (debugger_steps.wait_loop child script regs ic).1 = true := by
  intro script
  induction script with
  | nil =>
    intro regs ic b
    simp [debugger_steps.wait_loop, lock_step_from, is_wait]
  | cons s rest ih =>
    intro regs ic b
    cases hst : WIFSTOPPED s.wait.status with
    | false =>
      rw [debugger_steps.wait_loop_unstopped child s rest regs ic hst]
      simp [lock_step_from, is_wait, debugger_steps.lock_step_after_loop]
    | true =>
      by_cases hr : s.step < 0
      · rw [debugger_steps.wait_loop_rejected child s rest regs ic hst hr]
        simp [debugger_steps.pass, lock_step_from, is_wait, is_tracing, is_resuming]
      · rw [debugger_steps.wait_loop_stepped child s rest regs ic hst hr]
        simp [debugger_steps.pass, lock_step_from, is_wait, is_tracing, is_resuming, ih]

theorem debugger_steps.lock_step_single_step_driver (child : Int) (k : debugger_steps.Kernel) :
    lock_step (debugger_steps.do_debugger child k).1 = true := by
  unfold debugger_steps.do_debugger
  simp [lock_step, lock_step_from, is_wait, is_tracing, debugger_steps.lock_step_wait_loop]

/-- C10: in both drivers, in the sequence of calls the tracer makes, every
tracing primitive has a wait before it, the initial one, and between a
continue or a single-step and any later peek, poke, get-registers,
set-registers, continue or single-step there is a wait. -/
theorem C10_lock_step (child : Int) (kb : debugger.Kernel) (ks : debugger_steps.Kernel) :
    LockStep (debugger.do_debugger child kb).1 ∧
    LockStep (debugger_steps.do_debugger child ks).1 ∧
    lock_step (debugger.do_debugger child kb).1 = true ∧
    lock_step (debugger_steps.do_debugger child ks).1 = true :=
  ⟨LockStep_of_lock_step _ (debugger.lock_step_breakpoint_driver child kb),
    LockStep_of_lock_step _ (debugger_steps.lock_step_single_step_driver child ks),
    debugger.lock_step_breakpoint_driver child kb,
    debugger_steps.lock_step_single_step_driver child ks⟩

/-! ## The driver shells -/

/-- C9: in both drivers, `main` returns `-1` exactly when `fork` returns a
negative value, and returns `0` whenever it returns otherwise: in the parent
after `do_debugger` returns, and in the child when `do_debuggee` returns, which
it does when trace-me or `execve` fails; on a failure of `fork` neither
`do_debugger` nor `do_debuggee` runs, the trace being the `fork` and the
diagnostic alone. -/
theorem C9_main_return_value (child : Int) (kb : debugger.Kernel)
    (ks : debugger_steps.Kernel) (c : ChildKernel) :
    ((debugger.main child kb c).2 = MainResult.returned (-1) ↔ child < 0) ∧
    ((debugger_steps.main child ks c).2 = MainResult.returned (-1) ↔ child < 0) ∧
    (∀ v, (debugger.main child kb c).2 = MainResult.returned v → ¬ child < 0 → v = 0) ∧
    (∀ v, (debugger_steps.main child ks c).2 = MainResult.returned v → ¬ child < 0 → v = 0) ∧
    (0 < child → (debugger.do_debugger child kb).2 = Outcome.returned →
      (debugger.main child kb c).2 = MainResult.returned 0) ∧
    (0 < child → (debugger_steps.do_debugger child ks).2 = Outcome.returned →
      (debugger_steps.main child ks c).2 = MainResult.returned 0) ∧
    (child = 0 → (c.traceme ≠ 0 ∨ c.execve ≠ none) →
      (do_debuggee c).2 = Outcome.returned ∧
      (debugger.main child kb c).2 = MainResult.returned 0 ∧
      (debugger_steps.main child ks c).2 = MainResult.returned 0) ∧
    (child < 0 →
      (debugger.main child kb c).1 = [Event.fork, Event.perror "fork"] ∧
      (debugger_steps.main child ks c).1 = [Event.fork, Event.perror "fork"]) := by
  have hd : (do_debuggee c).2 = Outcome.returned ∨ (do_debuggee c).2 = Outcome.replaced := by
    unfold do_debuggee
    by_cases ht : c.traceme = 0
    · cases he : c.execve <;> simp [ht]
    · simp [ht]
  have hret : (c.traceme ≠ 0 ∨ c.execve ≠ none) → (do_debuggee c).2 = Outcome.returned := by
    intro h
    unfold do_debuggee
    by_cases ht : c.traceme = 0
    · cases he : c.execve with
      | none => simp [ht, he] at h
      | some v => simp [ht]
    · simp [ht]
  have hb : (debugger.do_debugger child kb).2 = Outcome.returned ∨
      (debugger.do_debugger child kb).2 = Outcome.exited (-1) := by
    unfold debugger.do_debugger
    cases hs : kb.signal_ok <;> simp
  have hs : (debugger_steps.do_debugger child ks).2 = Outcome.returned ∨
      (debugger_steps.do_debugger child ks).2 = Outcome.blocked := by
    unfold debugger_steps.do_debugger
    exact debugger_steps.wait_loop_ends child ks.script ks.regs0 0
  rcases lt_trichotomy child 0 with hneg | hzero | hpos
  · have h0 : ¬ child = 0 := by omega
    have h1 : ¬ child > 0 := by omega
    simp [debugger.main, debugger_steps.main, h0, h1, hneg]
  · subst hzero
    refine ⟨?_, ?_, ?_, ?_, ?_, ?_, ?_, ?_⟩
    · rcases hd with h | h <;> simp [debugger.main, h, after_call]
    · rcases hd with h | h <;> simp [debugger_steps.main, h, after_call]
    · intro v hv _
      rcases hd with h | h <;> simp [debugger.main, h, after_call] at hv
      exact hv.symm
    · intro v hv _
      rcases hd with h | h <;> simp [debugger_steps.main, h, after_call] at hv
      exact hv.symm
    · intro h; omega
    · intro h; omega
    · intro _ h
      have := hret h
      simp [debugger.main, debugger_steps.main, this, after_call]
    · intro h; omega
  · have h0 : ¬ child = 0 := by omega
    have h1 : ¬ child < 0 := by omega
    refine ⟨?_, ?_, ?_, ?_, ?_, ?_, ?_, ?_⟩
    · rcases hb with h | h <;> simp [debugger.main, h0, hpos, h1, h, after_call]
    · rcases hs with h | h <;> simp [debugger_steps.main, h0, hpos, h1, h, after_call]
    · intro v hv _
      rcases hb with h | h <;> simp [debugger.main, h0, hpos, h, after_call] at hv
      exact hv.symm
    · intro v hv _
      rcases hs with h | h <;> simp [debugger_steps.main, h0, hpos, h, after_call] at hv
      exact hv.symm
    · intro _ h
      simp [debugger.main, h0, hpos, h, after_call]
    · intro _ h
      simp [debugger_steps.main, h0, hpos, h, after_call]
    · intro h; omega
    · intro h; omega


/-- Witness of C9: `fork` fails in both drivers, and a child in which trace-me
is rejected. -/
theorem C9_main_return_value_witness :
    ((-1 : Int) < 0 ∧
      (debugger.main (-1) debugger.trap_run refused_child).2 = MainResult.returned (-1) ∧
      (debugger_steps.main (-1) debugger_steps.short_run refused_child).2 =
        MainResult.returned (-1)) ∧
    ((0 : Int) = 0 ∧ (refused_child.traceme ≠ 0 ∨ refused_child.execve ≠ none) ∧
      (do_debuggee refused_child).2 = Outcome.returned ∧
      (debugger.main 0 debugger.trap_run refused_child).2 = MainResult.returned 0 ∧
      (debugger_steps.main 0 debugger_steps.short_run refused_child).2 =
        MainResult.returned 0) :=
  ⟨⟨by decide,
      (C9_main_return_value (-1) debugger.trap_run debugger_steps.short_run
        refused_child).1.mpr (by decide),
      (C9_main_return_value (-1) debugger.trap_run debugger_steps.short_run
        refused_child).2.1.mpr (by decide)⟩,
    ⟨rfl, Or.inl (by decide),
      (C9_main_return_value 0 debugger.trap_run debugger_steps.short_run
        refused_child).2.2.2.2.2.2.1 rfl (Or.inl (by decide))⟩⟩